import Mathlib

/-!
Verification development for the Pivotal Tracker → Shortcut import pipeline
(`pivotal-import/pivotal_import.py`).  The Python source is shallowly embedded:
dictionaries become association lists or structures with `Option` fields,
Python string objects become `PyStr` (an identity tag plus a value, so that
both `is` and `==` comparisons can be expressed), exceptions become `Except`,
and the CSV files written by the importer become explicit list-valued state.
-/

/-- A Python string object: `sid` models object identity (`is` compares `sid`),
while `val` is the character content (`==` compares `val`).  The module-level
label constants are the unique objects with sids 0–3; strings parsed from the
CSV export at runtime are distinct objects and therefore carry other sids. -/
structure PyStr where
  sid : Nat
  val : String
deriving DecidableEq

/-- The constant `PIVOTAL_TO_SHORTCUT_LABEL`: the stable migration marker label. -/
def PIVOTAL_TO_SHORTCUT_LABEL : PyStr := ⟨0, "pivotal->shortcut"⟩

/-- The run-start timestamp captured once at module load
(`datetime.now().strftime("%Y-%m-%d %H:%M")`); modelled as a fixed string. -/
def currentDatetime : String := "2024-01-01 00:00"

/-- The constant `PIVOTAL_TO_SHORTCUT_RUN_LABEL`: the per-run timestamped marker label. -/
def PIVOTAL_TO_SHORTCUT_RUN_LABEL : PyStr := ⟨1, "pivotal->shortcut " ++ currentDatetime⟩

/-- The constant `PIVOTAL_RELEASE_TYPE_LABEL`: marker for chores created from releases. -/
def PIVOTAL_RELEASE_TYPE_LABEL : PyStr := ⟨2, "pivotal-release"⟩

/-- The constant `PIVOTAL_HAD_REVIEW_LABEL`: marker for stories that had reviews. -/
def PIVOTAL_HAD_REVIEW_LABEL : PyStr := ⟨3, "pivotal-had-review"⟩

/-- The constant `BATCH_SIZE`: the story batch size. -/
def BATCH_SIZE : Nat := 100

/-- A label dict `{"name": ...}`. -/
structure Label where
  name : PyStr
deriving DecidableEq

/-- A comment as parsed from the export row: optional author name and text. -/
structure RowComment where
  author : Option String
  text : String
deriving DecidableEq

/-- A comment as sent to Shortcut: optional resolved author id and text. -/
structure SCComment where
  author_id : Option String
  text : String
deriving DecidableEq

/-- A task entry `{"description": ..., "complete": ...}`. -/
structure TaskEntry where
  description : String
  complete : Bool
deriving DecidableEq

/-- A custom-field value `{"field_id": ..., "value_id": ...}`. -/
structure CustomField where
  field_id : String
  value_id : String
deriving DecidableEq

/-- Python `dict.get`: first matching key (keys are unique in built dicts). -/
def dictGet {α : Type} : List (String × α) → String → Option α
  | [], _ => none
  | (k, v) :: rest, key => if k = key then some v else dictGet rest key

/-- Python `d[k] = v`: replace the binding in place, else append. -/
def dictInsert {α : Type} : List (String × α) → String → α → List (String × α)
  | [], k, v => [(k, v)]
  | (k', v') :: rest, k, v =>
      if k' = k then (k, v) :: rest else (k', v') :: dictInsert rest k v

/-- Python truthiness of an optional string (`None` and `""` are falsy). -/
def truthyS : Option String → Bool
  | some s => s ≠ ""
  | none => false

/-- Python truthiness of an optional list (`None` and `[]` are falsy). -/
def truthyL {α : Type} : Option (List α) → Bool
  | some l => !l.isEmpty
  | none => false

/-- Python `"|".join(parts)`, written over the model's strings. -/
def joinPipe : List String → String
  | [] => ""
  | [p] => p
  | p :: rest => p ++ "|" ++ joinPipe rest

/-- Character-level worker for `splitPipe`. -/
def splitPipeChars : List Char → List (List Char)
  | [] => [[]]
  | c :: rest =>
      let r := splitPipeChars rest
      if c = '|' then [] :: r
      else match r with
        | [] => [[c]]
        | p :: ps => (c :: p) :: ps

/-- Python `s.split("|")`. -/
def splitPipe (s : String) : List String :=
  (splitPipeChars s.data).map (fun cs => String.mk cs)

/-- Function `escape_md_table_syntax` from the source: replace each `|` with `\|`. -/
def escapeMdTable (s : String) : String :=
  String.mk (s.data.foldr (fun c acc => if c = '|' then '\\' :: '|' :: acc else c :: acc) [])

/-- Constant `review_as_comment_text_prefix` from the source: the fixed table header. -/
def reviewCommentHeader : String :=
  "\\[Pivotal Importer\\] Reviewers have been added as followers on this Shortcut Story.\n\nThe following table describes the state of their reviews when they were imported into Shortcut from Pivotal Tracker:\n\n| Reviewer | Review Type | Review Status |\n|---|---|---|"

/-- Python `zip` over three lists (truncates to the shortest). -/
def zip3 : List String → List String → List String → List (String × String × String)
  | a :: as, b :: bs, c :: cs => (a, b, c) :: zip3 as bs cs
  | _, _, _ => []

/-- One Markdown table row `\n|reviewer|type|status|`, each cell escaped. -/
def reviewRow (t : String × String × String) : String :=
  "\n|" ++ escapeMdTable t.1 ++ "|" ++ escapeMdTable t.2.1 ++ "|" ++ escapeMdTable t.2.2 ++ "|"

/-- The list of Markdown table rows generated for the review comment. -/
def reviewRows (rs ts ss : List String) : List String :=
  (zip3 rs ts ss).map reviewRow

/-- The full review-comment text: header, then one row appended per triple. -/
def reviewCommentText (rs ts ss : List String) : String :=
  (reviewRows rs ts ss).foldl (fun acc row => acc ++ row) reviewCommentHeader

/-- The target-shaped entity payload.  Each field is a dictionary key; `none`
means the key is absent.  `group_id` is `Option (Option String)` because the
source stores a possibly-`None` group id under an always-present key. -/
structure Entity where
  comments : Option (List SCComment) := none
  created_at : Option String := none
  custom_fields : Option (List CustomField) := none
  deadline : Option String := none
  description : Option String := none
  estimate : Option Nat := none
  external_id : Option String := none
  external_links : Option (List String) := none
  follower_ids : Option (List String) := none
  group_id : Option (Option String) := none
  iteration_id : Option Nat := none
  labels : Option (List Label) := none
  name : Option String := none
  owner_ids : Option (List String) := none
  requested_by_id : Option String := none
  story_type : Option String := none
  tasks : Option (List TaskEntry) := none
  workflow_state_id : Option Nat := none
  group_ids : Option (List String) := none
  epic_id : Option Nat := none
  start_date : Option String := none
  end_date : Option String := none
deriving DecidableEq

/-- The target system's response to a successful creation. -/
structure Imported where
  id : Nat
  entity_type : String
deriving DecidableEq

/-- An `EntityRecord`: the unit produced by `build_entity` and consumed by the
collector and the backends.  (`parsed_row` is retained in the source only for
diagnostics and file lookup; it is not modelled.) -/
structure Rec where
  type : String
  entity : Entity
  iteration : Option String := none
  pt_iteration_id : Option String := none
  imported_entity : Option Imported := none
  error_message : Option String := none
deriving DecidableEq

/-- One normalized source row, with the fields `build_entity` reads. -/
structure Row where
  story_type : String
  labels : List Label := []
  name : Option String := none
  description : Option String := none
  created_at : Option String := none
  deadline : Option String := none
  estimate : Option Nat := none
  external_id : Option String := none
  external_links : Option (List String) := none
  comments : List RowComment := []
  pt_state : Option String := none
  task_titles : List String := []
  task_states : List String := []
  requester : Option String := none
  owners : Option (List String) := none
  reviewers : Option (List String) := none
  review_types : List String := []
  review_states : List String := []
  priority : Option String := none
  pt_iteration_id : Option String := none
  pt_iteration_start_date : String := ""
  pt_iteration_end_date : String := ""
deriving DecidableEq

/-- The run context built by `build_ctx`. -/
structure Ctx where
  group_id : Option String := none
  user_config : List (String × String) := []
  workflow_config : List (String × Nat) := []
  priority_config : List (String × String) := []
  priority_custom_field_id : String := ""
deriving DecidableEq

/-- Dict `select_keys` from the source: the allow-listed top-level attributes. -/
def select_keys : String → List String
  | "story" =>
      ["comments", "created_at", "custom_fields", "deadline", "description",
       "estimate", "external_id", "external_links", "follower_ids", "group_id",
       "iteration_id", "labels", "name", "owner_ids", "requested_by_id",
       "story_type", "tasks", "workflow_state_id"]
  | "epic" =>
      ["created_at", "description", "external_id", "group_ids", "labels", "name"]
  | _ => []

/-- Comment processing in `build_entity`: drop the author name and resolve it
to a member id when the user map knows it. -/
def processComment (uc : List (String × String)) (c : RowComment) : SCComment :=
  { author_id :=
      match c.author with
      | some a => if a ≠ "" then dictGet uc a else none
      | none => none,
    text := c.text }

/-- The requester resolution in `build_entity`: `requested_by_id` is set only
when the requester name is present and found in the user map. -/
def reqIdOf (ctx : Ctx) (r : Row) : Option String :=
  if truthyS r.requester then dictGet ctx.user_config (r.requester.getD "") else none

/-- Workflow-state resolution: `d["workflow_state_id"] = ctx["workflow_config"][pt_state]`
for a truthy `pt_state`; a missing mapping entry raises `KeyError`. -/
def getWorkflow (ctx : Ctx) (r : Row) : Except String (Option Nat) :=
  match r.pt_state with
  | some s =>
      if s = "" then Except.ok none
      else
        match dictGet ctx.workflow_config s with
        | some v => Except.ok (some v)
        | none => Except.error ("KeyError: " ++ s)
  | none => Except.ok none

/-- Priority resolution into the custom-field list; a truthy priority that is
missing from the priority map raises `KeyError`. -/
def getCustomFields (ctx : Ctx) (r : Row) : Except String (Option (List CustomField)) :=
  match r.priority with
  | some p =>
      if p = "" then Except.ok none
      else
        match dictGet ctx.priority_config p with
        | some v => Except.ok (some [⟨ctx.priority_custom_field_id, v⟩])
        | none => Except.error ("KeyError: " ++ p)
  | none => Except.ok none

/-- The story-typed record assembled by `build_entity` (the `type == "story"`
path, including the release→chore rewrite), given the results of the two
fallible lookups. -/
def mkStoryRec (ctx : Ctx) (r : Row) (wsid : Option Nat)
    (cfs : Option (List CustomField)) : Rec :=
  let labels1 := r.labels ++ [⟨PIVOTAL_TO_SHORTCUT_LABEL⟩, ⟨PIVOTAL_TO_SHORTCUT_RUN_LABEL⟩]
  let labels2 := if r.story_type = "release" then labels1 ++ [⟨PIVOTAL_RELEASE_TYPE_LABEL⟩] else labels1
  let labels3 := if truthyL r.reviewers then labels2 ++ [⟨PIVOTAL_HAD_REVIEW_LABEL⟩] else labels2
  let storyType := if r.story_type = "release" then "chore" else r.story_type
  let comments0 := r.comments.map (processComment ctx.user_config)
  let reqId := reqIdOf ctx r
  let comments1 :=
    if truthyL r.reviewers then
      comments0 ++ [⟨reqId, reviewCommentText (r.reviewers.getD []) r.review_types r.review_states⟩]
    else comments0
  let tasks := (r.task_titles.zip r.task_states).map (fun p => ⟨p.1, p.2 = "completed"⟩)
  { type := "story",
    entity :=
      { comments := if comments1 = [] then none else some comments1,
        created_at := r.created_at,
        custom_fields := cfs,
        deadline := r.deadline,
        description := r.description,
        estimate := r.estimate,
        external_id := r.external_id,
        external_links := r.external_links,
        follower_ids :=
          if truthyL r.reviewers then
            some ((r.reviewers.getD []).filterMap (dictGet ctx.user_config))
          else none,
        group_id := some ctx.group_id,
        iteration_id := none,
        labels := some labels3,
        name := r.name,
        owner_ids :=
          if truthyL r.owners then
            some ((r.owners.getD []).filterMap (dictGet ctx.user_config))
          else none,
        requested_by_id := reqId,
        story_type := some storyType,
        tasks := if tasks = [] then none else some tasks,
        workflow_state_id := wsid,
        group_ids := none, epic_id := none, start_date := none, end_date := none },
    iteration :=
      if truthyS r.pt_iteration_id then
        some (joinPipe [r.pt_iteration_id.getD "", r.pt_iteration_start_date, r.pt_iteration_end_date])
      else none,
    pt_iteration_id := r.pt_iteration_id }

/-- The epic-typed record assembled by `build_entity` (the `type == "epic"` path). -/
def mkEpicRec (ctx : Ctx) (r : Row) : Rec :=
  { type := "epic",
    entity :=
      { created_at := r.created_at,
        description := r.description,
        external_id := r.external_id,
        group_ids := some (match ctx.group_id with | some g => [g] | none => []),
        labels := some (r.labels ++ [⟨PIVOTAL_TO_SHORTCUT_LABEL⟩, ⟨PIVOTAL_TO_SHORTCUT_RUN_LABEL⟩]),
        name := r.name },
    iteration := none,
    pt_iteration_id := r.pt_iteration_id }

/-- Function `build_entity` from the source: transform one row into an `EntityRecord`.
The entity payload is the allow-listed projection of the working dict, here
realized field-by-field in `mkStoryRec` / `mkEpicRec`.  The two dictionary
accesses that can raise (`workflow_config[pt_state]`, evaluated first, then
`priority_config[pt_priority]`) surface as `Except.error`. -/
def build_entity (ctx : Ctx) (r : Row) : Except String Rec :=
  if r.story_type = "epic" then Except.ok (mkEpicRec ctx r)
  else
    match getWorkflow ctx r with
    | Except.error e => Except.error e
    | Except.ok wsid =>
        match getCustomFields ctx r with
        | Except.error e => Except.error e
        | Except.ok cfs => Except.ok (mkStoryRec ctx r wsid cfs)

/-- Function `collect_epic_label_mapping` from the source.  Note the source guards with
`label_name is not PIVOTAL_TO_SHORTCUT_LABEL and label_name is not
PIVOTAL_TO_SHORTCUT_RUN_LABEL`: Python object identity, modelled by comparing
`sid`s.  Epics reaching this function are already created, so
`epic["imported_entity"]["id"]` is modelled with a `getD 0` default. -/
def collect_epic_label_mapping (epics : List Rec) : List (String × Nat) :=
  epics.foldl
    (fun m e =>
      (e.entity.labels.getD []).foldl
        (fun m l =>
          if l.name.sid = PIVOTAL_TO_SHORTCUT_LABEL.sid ∨
             l.name.sid = PIVOTAL_TO_SHORTCUT_RUN_LABEL.sid then m
          else dictInsert m l.name.val ((e.imported_entity.map (fun ie => ie.id)).getD 0))
        m)
    []

/-- The per-story body of `assign_stories_to_epics`: scan the story's labels in
order and overwrite `epic_id` on every map hit (so the last match wins). -/
def assignEpicOne (m : List (String × Nat)) (s : Rec) : Rec :=
  let ent :=
    (s.entity.labels.getD []).foldl
      (fun ent l =>
        match dictGet m l.name.val with
        | some eid => { ent with epic_id := some eid }
        | none => ent)
      s.entity
  { s with entity := ent }

/-- Function `assign_stories_to_epics` from the source. -/
def assign_stories_to_epics (stories epics : List Rec) : List Rec :=
  stories.map (assignEpicOne (collect_epic_label_mapping epics))

/-- Function `collect_pt_iteration_mapping` from the source: fold the created iterations
into a dict keyed by `pt_iteration_id` (a later duplicate id overwrites). -/
def collect_pt_iteration_mapping (iterations : List Rec) : List (String × Nat) :=
  iterations.foldl
    (fun d it =>
      dictInsert d (it.pt_iteration_id.getD "")
        ((it.imported_entity.map (fun ie => ie.id)).getD 0))
    []

/-- The per-story body of `assign_stories_to_iterations`: for a truthy
`pt_iteration_id` the mapping access `pt_iteration_mapping[str(pt_iteration_id)]`
raises `KeyError` when the id is absent. -/
def assignIterOne (m : List (String × Nat)) (s : Rec) : Except String Rec :=
  if truthyS s.pt_iteration_id then
    match dictGet m (s.pt_iteration_id.getD "") with
    | some n => Except.ok { s with entity := { s.entity with iteration_id := some n } }
    | none => Except.error ("KeyError: " ++ s.pt_iteration_id.getD "")
  else Except.ok s

/-- The loop of `assign_stories_to_iterations`: mutate each story in order,
stopping at the first `KeyError`. -/
def assignItersList (m : List (String × Nat)) : List Rec → Except String (List Rec)
  | [] => Except.ok []
  | s :: rest =>
      match assignIterOne m s with
      | Except.error e => Except.error e
      | Except.ok s' =>
          match assignItersList m rest with
          | Except.error e => Except.error e
          | Except.ok rest' => Except.ok (s' :: rest')

/-- Function `assign_stories_to_iterations` from the source. -/
def assign_stories_to_iterations (stories iterations : List Rec) :
    Except String (List Rec) :=
  assignItersList (collect_pt_iteration_mapping iterations) stories

/-- The `EntityCollector`'s buckets.  `iteration_strings` is a Python `set`
accrued by `add`, modelled as an insertion-ordered deduplicated list. -/
structure Collector where
  stories : List Rec := []
  epics : List Rec := []
  iteration_strings : List String := []
  labels : List Rec := []
deriving DecidableEq

/-- Add to the deduplicated iteration-key set. -/
def insertDedup (l : List String) (s : String) : List String :=
  if s ∈ l then l else l ++ [s]

/-- Method `EntityCollector.collect` from the source: route the record into the bucket
for its type (story records also contribute a truthy iteration key to the
pending set); any other type raises `RuntimeError` before mutating anything,
so the unchanged collector is returned alongside the error.  The success value
models the returned `{type: 1}` counter by its type string. -/
def Collector.collect (c : Collector) (item : Rec) : Collector × Except String String :=
  if item.type = "story" then
    ({ c with
        stories := c.stories ++ [item],
        iteration_strings :=
          match item.iteration with
          | some s => if s = "" then c.iteration_strings else insertDedup c.iteration_strings s
          | none => c.iteration_strings },
      Except.ok "story")
  else if item.type = "epic" then
    ({ c with epics := c.epics ++ [item] }, Except.ok "epic")
  else if item.type = "label" then
    ({ c with labels := c.labels ++ [item] }, Except.ok "label")
  else (c, Except.error ("Unknown entity type " ++ item.type))

/-- Collect a list of records in order; the first raise aborts the run, as an
uncaught exception would in `process_pt_csv_export`. -/
def collectAll : Collector → List Rec → Collector × Except String Unit
  | c, [] => (c, Except.ok ())
  | c, item :: rest =>
      match Collector.collect c item with
      | (c', Except.ok _) => collectAll c' rest
      | (c', Except.error e) => (c', Except.error e)

/-- The iteration-creation request materialized in `commit` from one pending
iteration key: `id, start_date, end_date = iteration_string.split("|")` (the
source unpacking assumes exactly three fields), named `PT {id}`. -/
def mkIterRec (s : String) : Rec :=
  let parts := splitPipe s
  { type := "iteration",
    pt_iteration_id := some (parts.getD 0 ""),
    entity :=
      { name := some ("PT " ++ parts.getD 0 ""),
        start_date := some (parts.getD 1 ""),
        end_date := some (parts.getD 2 "") } }

/-- The mock (dry-run) emitter from `get_mock_emitter`: assign sequentially
increasing ids from a process-wide counter, stamping `imported_entity` with the
id and the record's type.  (The fabricated `app_url`, used only for console
output, is not modelled.) -/
def mockEmit : Nat → List Rec → List Rec × Nat
  | n, [] => ([], n)
  | n, it :: rest =>
      let r := { it with imported_entity := some ⟨n, it.type⟩ }
      let (rs, n') := mockEmit (n + 1) rest
      (r :: rs, n')

/-- The story-batch loop of `EntityCollector.commit` (dry run): take
`BATCH_SIZE`-sized batches, link epics and iterations, then emit.  Structural
fuel bounds the recursion; `fuel ≥ ss.length` always suffices. -/
def processChunksDry (epicsDone itersDone : List Rec) :
    Nat → Nat → List Rec → Except String (List Rec × Nat)
  | _, n, [] => Except.ok ([], n)
  | 0, n, _ => Except.ok ([], n)
  | fuel + 1, n, ss =>
      let batch := ss.take BATCH_SIZE
      let b1 := assign_stories_to_epics batch epicsDone
      match assign_stories_to_iterations b1 itersDone with
      | Except.error e => Except.error e
      | Except.ok b2 =>
          let (eb, n') := mockEmit n b2
          match processChunksDry epicsDone itersDone fuel n' (ss.drop BATCH_SIZE) with
          | Except.error e => Except.error e
          | Except.ok (rest, n'') => Except.ok (eb ++ rest, n'')

/-- The result of a dry-run `commit`. -/
structure DryRunOut where
  labels : List Rec
  epics : List Rec
  iterations : List Rec
  stories : List Rec
  nextId : Nat
deriving DecidableEq

/-- Method `EntityCollector.commit` in dry-run mode (`is_dry_run = True`, emitter =
mock): emit labels, then epics, then the iterations materialized from the
pending key set, then the stories batch by batch with epic and iteration
linkage applied before each batch is emitted.  No CSV is written in dry-run.
A `KeyError` from iteration linkage propagates. -/
def commitDryRun (n0 : Nat) (c : Collector) : Except String DryRunOut :=
  let labelsDone := (mockEmit n0 c.labels).1
  let n1 := (mockEmit n0 c.labels).2
  let epicsDone := (mockEmit n1 c.epics).1
  let n2 := (mockEmit n1 c.epics).2
  let iterEnts := c.iteration_strings.map mkIterRec
  let itersDone := (mockEmit n2 iterEnts).1
  let n3 := (mockEmit n2 iterEnts).2
  match processChunksDry epicsDone itersDone c.stories.length n3 c.stories with
  | Except.error e => Except.error e
  | Except.ok (storiesDone, n4) =>
      Except.ok ⟨labelsDone, epicsDone, itersDone, storiesDone, n4⟩

/-- The Ledger CSV (`shortcut_imported_entities`): a sequence of `(type, id)`
rows. -/
abbrev Ledger := List (String × Nat)

/-- One row of the failed-stories remediation CSV
(`data/failed_stories.csv`): story name, external id, error message.  (The
serialized payload and timestamp columns carry no information the claims
need.) -/
structure FailedRow where
  story_name : String
  external_id : String
  error_message : String
deriving DecidableEq

/-- Function `write_to_imported_entities_csv` from the source: an empty entity list
returns before the file is even opened (so a `mode='w'` call with no entities
does NOT truncate); otherwise mode `'w'` rewrites the file with the given rows
and mode `'a'` appends them. -/
def writeImportedCSV (led : Ledger) (ents : List Imported) (wMode : Bool) : Ledger :=
  if ents.isEmpty then led
  else (if wMode then [] else led) ++ ents.map (fun ie => (ie.entity_type, ie.id))

/-- Function `write_failed_stories` from the source: append one row per failed story
(with `"Unknown"` defaults), writing nothing for an empty list. -/
def appendFailed (f : List FailedRow) (stories : List Rec) : List FailedRow :=
  f ++ stories.map (fun s =>
    ⟨s.entity.name.getD "Unknown", s.entity.external_id.getD "Unknown",
     s.error_message.getD "Unknown error"⟩)

/-- The file-valued state threaded through the live backend. -/
structure LiveSt where
  ledger : Ledger
  failedCsv : List FailedRow
deriving DecidableEq

/-- A live `sc_post` to a single-entity endpoint. -/
abbrev PostFn := String → Entity → Except String Imported

/-- A live `sc_post("/stories/bulk", ...)` call. -/
abbrev BulkFn := List Entity → Except String (List Imported)

/-- The successful `imported_entity` payloads of a record list. -/
def importedOf (rs : List Rec) : List Imported :=
  rs.filterMap (fun r => r.imported_entity)

/-- Function `process_batch` inside `sc_creator`: after file processing (modelled as a
pass-through: no local attachment directories) and comment cleaning (identity
on this comment model), one bulk-create call is attempted for the whole batch.
On success the created entities are zipped back onto the stories and appended
to the Ledger; on ANY bulk failure every story of the batch is routed to the
failed-stories file and none is retried individually. -/
def scProcessBatch (bulk : BulkFn) (st : LiveSt) (succ : List Rec)
    (batch : List Rec) : LiveSt × List Rec :=
  if batch.isEmpty then (st, succ)
  else
    match bulk (batch.map (fun s => s.entity)) with
    | Except.ok created =>
        let updated := (created.zip batch).map
          (fun p => { p.2 with imported_entity := some p.1 })
        ({ st with ledger := writeImportedCSV st.ledger created false }, succ ++ updated)
    | Except.error _ =>
        ({ st with failedCsv := appendFailed st.failedCsv batch }, succ)

/-- The story half of `sc_creator`: accrue stories and flush a batch whenever
`BATCH_SIZE` is reached, then flush the remainder — equivalently, process the
story list in `BATCH_SIZE`-sized chunks.  Structural fuel bounds the
recursion; `fuel ≥ ss.length` always suffices. -/
def scStoryChunks (bulk : BulkFn) :
    Nat → LiveSt → List Rec → List Rec → LiveSt × List Rec
  | _, st, succ, [] => (st, succ)
  | 0, st, succ, _ => (st, succ)
  | fuel + 1, st, succ, ss =>
      scStoryChunks bulk fuel (scProcessBatch bulk st succ (ss.take BATCH_SIZE)).1
        (scProcessBatch bulk st succ (ss.take BATCH_SIZE)).2 (ss.drop BATCH_SIZE)

/-- The non-story loop of `sc_creator`: one POST per entity to the endpoint
for its type; a success is appended to the Ledger at once.  In the source, a
creation failure (and likewise an unknown type's `RuntimeError`) lands in an
`except` block that calls `write_failed_stories` with two arguments — the
function only takes one, so the handler itself raises `TypeError`, which
propagates out of `sc_creator`. -/
def scNonStories (post : PostFn) :
    LiveSt → List Rec → List Rec → Except String (LiveSt × List Rec)
  | st, succ, [] => Except.ok (st, succ)
  | st, succ, item :: rest =>
      if item.type = "story" then scNonStories post st succ rest
      else
        let ep :=
          if item.type = "epic" then some "/epics"
          else if item.type = "iteration" then some "/iterations"
          else if item.type = "label" then some "/labels"
          else none
        match ep with
        | none =>
            Except.error "TypeError: write_failed_stories() takes 1 positional argument but 2 were given"
        | some endpoint =>
            match post endpoint item.entity with
            | Except.ok res =>
                scNonStories post
                  { st with ledger := writeImportedCSV st.ledger [res] false }
                  (succ ++ [{ item with imported_entity := some res }]) rest
            | Except.error _ =>
                Except.error "TypeError: write_failed_stories() takes 1 positional argument but 2 were given"

/-- Function `sc_creator` from the source (the live emitter): initialize the CSV with
an empty `mode='w'` write (a no-op because of the empty-list guard), create
all non-story entities one at a time, then create the stories in
`BATCH_SIZE`-sized bulk batches. -/
def sc_creator (post : PostFn) (bulk : BulkFn) (st : LiveSt) (items : List Rec) :
    Except String (LiveSt × List Rec) :=
  match scNonStories post { st with ledger := writeImportedCSV st.ledger [] true } [] items with
  | Except.error e => Except.error e
  | Except.ok (st1, succ1) =>
      Except.ok (scStoryChunks bulk (items.filter (fun i => i.type = "story")).length
        st1 succ1 (items.filter (fun i => i.type = "story")))

/-- Function `create_stories` from the source.  This function implements the documented
bulk-then-individual fallback (on bulk failure each story is retried with its
own POST, and only the individually-failing stories are recorded in the
failed-stories file) — but nothing in the repository ever calls it: the live
pipeline uses `sc_creator`, whose `process_batch` has no fallback. -/
def create_stories (post : PostFn) (bulk : BulkFn) (st : LiveSt)
    (stories : List Rec) : LiveSt × List Rec :=
  match bulk (stories.map (fun s => s.entity)) with
  | Except.ok created =>
      (st, (created.zip stories).map (fun p => { p.2 with imported_entity := some p.1 }))
  | Except.error _ =>
      let step := fun (acc : List Rec × List Rec) (s : Rec) =>
        match post "/stories" s.entity with
        | Except.ok created => (acc.1 ++ [{ s with imported_entity := some created }], acc.2)
        | Except.error e => (acc.1, acc.2 ++ [{ s with error_message := some (toString e) }])
      let (succ, failed) := stories.foldl step ([], [])
      ({ st with failedCsv := appendFailed st.failedCsv failed }, succ)

/-- The result of a live `commit`: the final file state and the Ledger
contents as they stood at the end of each phase (labels, epics, iterations)
and then after each story batch. -/
structure LiveCommitOut where
  finalState : LiveSt
  snapshots : List Ledger
deriving DecidableEq

/-- The story-batch loop of `EntityCollector.commit` in live mode: for each
`BATCH_SIZE`-sized batch, link epics and iterations, hand the batch to the
live emitter (whose story path cannot raise), and append the not-yet-recorded
created stories to the Ledger, remembering them in `written`.  The Ledger
contents after each batch are snapshotted.  The `except` arm of
`process_story_batch` (write the whole batch to the failed file, create
nothing) is modelled even though the story-only emitter call never raises. -/
def liveStoryChunks (post : PostFn) (bulk : BulkFn) (epicsDone itersDone : List Rec) :
    Nat → List (String × Nat) → LiveSt → List Rec →
      Except String (LiveSt × List Ledger)
  | _, _, st, [] => Except.ok (st, [])
  | 0, _, st, _ => Except.ok (st, [])
  | fuel + 1, written, st, ss =>
      let batch := ss.take BATCH_SIZE
      let b1 := assign_stories_to_epics batch epicsDone
      match assign_stories_to_iterations b1 itersDone with
      | Except.error e => Except.error e
      | Except.ok b2 =>
          match sc_creator post bulk st b2 with
          | Except.ok (st', created) =>
              let newStories := (importedOf created).filter
                (fun i => ¬ ("story", i.id) ∈ written)
              let st'' := { st' with ledger := writeImportedCSV st'.ledger newStories false }
              let written' := written ++ newStories.map (fun i => ("story", i.id))
              match liveStoryChunks post bulk epicsDone itersDone fuel written' st'' (ss.drop BATCH_SIZE) with
              | Except.error e => Except.error e
              | Except.ok (stF, snaps) => Except.ok (stF, st''.ledger :: snaps)
          | Except.error _ =>
              let st' := { st with failedCsv := appendFailed st.failedCsv b2 }
              match liveStoryChunks post bulk epicsDone itersDone fuel written st' (ss.drop BATCH_SIZE) with
              | Except.error e => Except.error e
              | Except.ok (stF, snaps) => Except.ok (stF, st'.ledger :: snaps)

/-- The labels phase of a live `commit`: emit the labels, then initialize the
Ledger file by writing the created label entities with `mode='w'`. -/
def commitLabelsPhase (post : PostFn) (bulk : BulkFn) (c : Collector) :
    Except String (LiveSt × List Rec) :=
  match sc_creator post bulk ⟨[], []⟩ c.labels with
  | Except.error e => Except.error e
  | Except.ok (st1, labelsDone) =>
      Except.ok
        ({ st1 with ledger := writeImportedCSV st1.ledger (importedOf labelsDone) true },
         labelsDone)

/-- The epics/iterations phase pattern of a live `commit`: emit the items,
then append the created entities not already recorded in `written`,
extending `written` accordingly. -/
def commitAppendPhase (post : PostFn) (bulk : BulkFn) (ty : String)
    (written : List (String × Nat)) (st : LiveSt) (items : List Rec) :
    Except String (LiveSt × List Rec × List (String × Nat)) :=
  match sc_creator post bulk st items with
  | Except.error e => Except.error e
  | Except.ok (st', done) =>
      Except.ok
        ({ st' with ledger := writeImportedCSV st'.ledger ((importedOf done).filter (fun i => ¬ (ty, i.id) ∈ written)) false },
         done,
         written ++ ((importedOf done).filter
            (fun i => ¬ (ty, i.id) ∈ written)).map (fun i => (ty, i.id)))

/-- Method `EntityCollector.commit` in live mode (`is_dry_run = False`, emitter =
`sc_creator`).  Labels are emitted and then written with `mode='w'`
(initializing the Ledger file); epics and the iterations materialized from
the pending key set are emitted with the not-yet-written entities appended;
stories are processed in batches with epic and iteration linkage, each
batch's new stories appended immediately.  The run starts from empty files,
and the Ledger contents at the end of each phase and after each story batch
are snapshotted. -/
def commitLive (post : PostFn) (bulk : BulkFn) (c : Collector) :
    Except String LiveCommitOut :=
  match commitLabelsPhase post bulk c with
  | Except.error e => Except.error e
  | Except.ok (st2, labelsDone) =>
      match commitAppendPhase post bulk "epic"
          ((importedOf labelsDone).map (fun i => ("label", i.id))) st2 c.epics with
      | Except.error e => Except.error e
      | Except.ok (st4, epicsDone, written2) =>
          match commitAppendPhase post bulk "iteration" written2 st4
              (c.iteration_strings.map mkIterRec) with
          | Except.error e => Except.error e
          | Except.ok (st6, itersDone, written3) =>
              match liveStoryChunks post bulk epicsDone itersDone
                  c.stories.length written3 st6 c.stories with
              | Except.error e => Except.error e
              | Except.ok (stF, batchSnaps) =>
                  Except.ok ⟨stF, st2.ledger :: st4.ledger :: st6.ledger :: batchSnaps⟩

/-- The last element of a list, if any (used to state last-match-wins). -/
def lastOpt {α : Type} : List α → Option α
  | [] => none
  | [a] => some a
  | _ :: b :: rest => lastOpt (b :: rest)

/-- The epic ids of a story's labels that hit the epic-label map, in label
order. -/
def matchedEpicIds (m : List (String × Nat)) (s : Rec) : List Nat :=
  (s.entity.labels.getD []).filterMap (fun l => dictGet m l.name.val)

/-- Every top-level key an `Entity` payload can carry. -/
def allEntityKeys : List String :=
  ["comments", "created_at", "custom_fields", "deadline", "description",
   "estimate", "external_id", "external_links", "follower_ids", "group_id",
   "iteration_id", "labels", "name", "owner_ids", "requested_by_id",
   "story_type", "tasks", "workflow_state_id", "group_ids", "epic_id",
   "start_date", "end_date"]

/-- Whether the given top-level key is present on the payload. -/
def keyPresent (e : Entity) : String → Bool
  | "comments" => e.comments.isSome
  | "created_at" => e.created_at.isSome
  | "custom_fields" => e.custom_fields.isSome
  | "deadline" => e.deadline.isSome
  | "description" => e.description.isSome
  | "estimate" => e.estimate.isSome
  | "external_id" => e.external_id.isSome
  | "external_links" => e.external_links.isSome
  | "follower_ids" => e.follower_ids.isSome
  | "group_id" => e.group_id.isSome
  | "iteration_id" => e.iteration_id.isSome
  | "labels" => e.labels.isSome
  | "name" => e.name.isSome
  | "owner_ids" => e.owner_ids.isSome
  | "requested_by_id" => e.requested_by_id.isSome
  | "story_type" => e.story_type.isSome
  | "tasks" => e.tasks.isSome
  | "workflow_state_id" => e.workflow_state_id.isSome
  | "group_ids" => e.group_ids.isSome
  | "epic_id" => e.epic_id.isSome
  | "start_date" => e.start_date.isSome
  | "end_date" => e.end_date.isSome
  | _ => false

/-- The top-level attributes actually carried by a payload. -/
def presentKeys (e : Entity) : List String :=
  allEntityKeys.filter (keyPresent e)

/-- The iteration keys contributed to the pending set by a record list
(the effect of `collect` on `iteration_strings`). -/
def addKeys : List String → List Rec → List String
  | acc, [] => acc
  | acc, r :: rest =>
      addKeys
        (match r.iteration with
         | some s => if s = "" then acc else insertDedup acc s
         | none => acc)
        rest

/-- A record is iteration-consistent when a truthy `pt_iteration_id` comes
with a non-empty iteration key whose first `|`-field is that id, and a falsy
one comes with no key — exactly what `build_entity` produces. -/
def iterKeyConsistent (r : Rec) : Bool :=
  if truthyS r.pt_iteration_id then
    match r.iteration with
    | some k => (k != "") && ((splitPipe k).getD 0 "" == r.pt_iteration_id.getD "")
    | none => false
  else r.iteration == none

/-- Each ledger state extends its predecessor (`<+:` is list prefix). -/
def ledgerChain : Ledger → List Ledger → Prop
  | _, [] => True
  | led, l :: rest => led <+: l ∧ ledgerChain l rest

/-- The whole snapshot sequence is a prefix chain. -/
def chainAll : List Ledger → Prop
  | [] => True
  | l :: rest => ledgerChain l rest

/-- Persistence of appended records: any row present in an earlier snapshot is
present in every later snapshot. -/
def ledgerPersists (snaps : List Ledger) : Prop :=
  ∀ i j (hi : i < snaps.length) (hj : j < snaps.length), i ≤ j →
    ∀ p, p ∈ snaps.get ⟨i, hi⟩ → p ∈ snaps.get ⟨j, hj⟩

/-!  Concrete inputs used by witnesses and counterexamples.  -/

/-- A bulk call that fails (e.g. one malformed record poisons the batch). -/
def c1Bulk : BulkFn := fun _ => Except.error "422 Unprocessable"

/-- A valid story in the failing batch. -/
def c1Story1 : Rec :=
  { type := "story", entity := { name := some "good story", external_id := some "101" } }

/-- The story whose payload makes the bulk call fail. -/
def c1Story2 : Rec :=
  { type := "story", entity := { name := some "bad story", external_id := some "102" } }

/-- A single-entity POST that fails exactly on the bad story's payload. -/
def c1Post : PostFn := fun _ e =>
  if e.name = some "bad story" then Except.error "422 Unprocessable"
  else Except.ok ⟨11, "story"⟩

/-- An epic created this run that carries a label whose TEXT equals the stable
marker label but which is a distinct string object (sid 7), e.g. a label read
from the CSV export. -/
def c3Epic : Rec :=
  { type := "epic",
    entity := { labels := some [⟨⟨7, "pivotal->shortcut"⟩⟩] },
    imported_entity := some ⟨5, "epic"⟩ }

/-- A story row carrying a project label. -/
def c4RowS : Row := { story_type := "feature", labels := [⟨⟨10, "projx"⟩⟩], name := some "S" }

/-- An epic row carrying the same project label text. -/
def c4RowE : Row := { story_type := "epic", labels := [⟨⟨11, "projx"⟩⟩], name := some "E" }

/-- The story record built from `c4RowS`. -/
def c4Story : Rec := mkStoryRec {} c4RowS none none

/-- The epic record built from `c4RowE`. -/
def c4Epic : Rec := mkEpicRec {} c4RowE

/-- Four story records referencing Pivotal iteration id "1", two with dates
`a…b` and two with dates `c…d` — each consistent on its own, but the same id
carries two different iteration keys. -/
def c5CexRecs : List Rec :=
  [{ type := "story", entity := {}, iteration := some "1|a|b", pt_iteration_id := some "1" },
   { type := "story", entity := {}, iteration := some "1|a|b", pt_iteration_id := some "1" },
   { type := "story", entity := {}, iteration := some "1|c|d", pt_iteration_id := some "1" },
   { type := "story", entity := {}, iteration := some "1|c|d", pt_iteration_id := some "1" }]

/-- Two story records sharing the iteration triple `7 / s1 / e1`. -/
def c5WitRecs : List Rec :=
  [{ type := "story", entity := {}, iteration := some "7|s1|e1", pt_iteration_id := some "7" },
   { type := "story", entity := {}, iteration := some "7|s1|e1", pt_iteration_id := some "7" }]

/-- An epic-label map with two entries. -/
def c6Map : List (String × Nat) := [("alpha", 1), ("beta", 2)]

/-- A story whose labels hit both entries of `c6Map`, in order. -/
def c6Story : Rec :=
  { type := "story",
    entity := { labels := some [⟨⟨20, "alpha"⟩⟩, ⟨⟨21, "gamma"⟩⟩, ⟨⟨22, "beta"⟩⟩] } }

/-- A story row with one reviewer triple whose reviewer name contains `|`. -/
def c7Row : Row :=
  { story_type := "feature", name := some "R",
    reviewers := some ["eve|l"], review_types := ["code"], review_states := ["pass"] }

/-- A release-typed source row. -/
def c8Row : Row := { story_type := "release", labels := [], name := some "cut 1.2" }

/-- A context whose workflow map knows only `started`. -/
def c9Ctx : Ctx := { workflow_config := [("started", 500)] }

/-- A story row in an unmapped workflow state. -/
def c9Row : Row := { story_type := "feature", pt_state := some "unscheduled" }

/-- A story row in the mapped `started` state. -/
def c9RowOk : Row := { story_type := "feature", pt_state := some "started" }

/-- A live POST that always succeeds, tagging the type from the endpoint. -/
def c2Post : PostFn := fun ep _ =>
  Except.ok ⟨1, if ep = "/labels" then "label" else if ep = "/epics" then "epic" else "iteration"⟩

/-- A live bulk call that always succeeds. -/
def c2Bulk : BulkFn := fun es => Except.ok (es.map (fun _ => ⟨9, "story"⟩))

/-- A small collector: one label, one epic, one story. -/
def c2Coll : Collector :=
  { labels := [{ type := "label", entity := { name := some "pivotal->shortcut 2024-01-01 00:00" } }],
    epics := [{ type := "epic", entity := { labels := some [] } }],
    iteration_strings := [],
    stories := [{ type := "story", entity := { name := some "st" } }] }

/-- The record built from `c7Row`. -/
def c7Rec : Rec := mkStoryRec {} c7Row none none

/-- The record built from `c8Row`. -/
def c8Rec : Rec := mkStoryRec {} c8Row none none

/-- The output of the small live commit run. -/
def c2Out : LiveCommitOut :=
  ⟨⟨[("label", 1), ("epic", 1), ("epic", 1), ("story", 9), ("story", 9)], []⟩,
   [[("label", 1)],
    [("label", 1), ("epic", 1), ("epic", 1)],
    [("label", 1), ("epic", 1), ("epic", 1)],
    [("label", 1), ("epic", 1), ("epic", 1), ("story", 9), ("story", 9)]]⟩

/-- The built story after epic linkage against the created epic `c4Epic`
(emitted by the sequential-id emitter), as `commit` performs it. -/
def c4Linked : Rec :=
  assignEpicOne (collect_epic_label_mapping (mockEmit 0 [c4Epic]).1) c4Story

/-- Successful builds with a non-epic discriminator are exactly the
`mkStoryRec` outcomes of the two fallible lookups. -/
theorem build_entity_story_cases {ctx : Ctx} {r : Row} {rec : Rec}
    (hne : r.story_type ≠ "epic")
    (hok : build_entity ctx r = Except.ok rec) :
    ∃ wsid cfs, getWorkflow ctx r = Except.ok wsid ∧
      getCustomFields ctx r = Except.ok cfs ∧ rec = mkStoryRec ctx r wsid cfs := by
  unfold build_entity at hok
  rw [if_neg hne] at hok
  cases hw : getWorkflow ctx r with
  | error e => rw [hw] at hok; cases hok
  | ok wsid =>
      rw [hw] at hok
      cases hcf : getCustomFields ctx r with
      | error e => rw [hcf] at hok; cases hok
      | ok cfs =>
          rw [hcf] at hok
          injection hok with h
          exact ⟨wsid, cfs, rfl, rfl, h.symm⟩

/-- Claim C10: `EntityCollector.collect` raises `RuntimeError` on every record
whose type is not story, epic or label (hence in particular on `iteration` and
`file` records), returning with every bucket untouched. -/
theorem collect_unknown_type_raises (c : Collector) (item : Rec)
    (h : ¬ item.type ∈ (["story", "epic", "label"] : List String)) :
    Collector.collect c item = (c, Except.error ("Unknown entity type " ++ item.type)) := by
  have h1 : ¬ item.type = "story" := fun hh => h (by simp [hh])
  have h2 : ¬ item.type = "epic" := fun hh => h (by simp [hh])
  have h3 : ¬ item.type = "label" := fun hh => h (by simp [hh])
  simp [Collector.collect, h1, h2, h3]

/-- Witness for C10: collecting an `iteration`-typed record raises and leaves
the empty collector unchanged. -/
theorem collect_unknown_type_raises_witness :
    Collector.collect {} { type := "iteration", entity := {} } =
      ({}, Except.error ("Unknown entity type " ++ "iteration")) :=
  collect_unknown_type_raises {} { type := "iteration", entity := {} } (by decide)

/-- Claim C3 (failing run): because the source compares label names with `is`
(object identity) rather than `==`, an epic label whose text equals the stable
marker label but is a distinct string object IS entered into the epic-label
map, keyed by the marker's name. -/
theorem epic_label_map_keeps_marker_named_key :
    dictGet (collect_epic_label_mapping [c3Epic]) "pivotal->shortcut" = some 5 ∧
    PIVOTAL_TO_SHORTCUT_LABEL.val = "pivotal->shortcut" := ⟨rfl, rfl⟩

/-- Claim C1 (failing run): in the live backend's `process_batch`, a failing
bulk call routes the whole batch — including the perfectly valid story — to
the failed-stories file and creates nothing individually: 0 successes and 2
failure rows instead of the claimed 1 success and 1 failure. -/
theorem bulk_failure_fails_whole_batch :
    scProcessBatch c1Bulk ⟨[], []⟩ [] [c1Story1, c1Story2] =
      (⟨[], [⟨"good story", "101", "Unknown error"⟩,
             ⟨"bad story", "102", "Unknown error"⟩]⟩, []) := rfl

/-- The unreachable `create_stories` function would have delivered the claimed
behaviour at the same input: one success and one failure row. -/
theorem create_stories_would_fall_back :
    ((create_stories c1Post c1Bulk ⟨[], []⟩ [c1Story1, c1Story2]).2.map
        (fun s => s.imported_entity) = [some ⟨11, "story"⟩]) ∧
    (create_stories c1Post c1Bulk ⟨[], []⟩ [c1Story1, c1Story2]).1.failedCsv =
      [⟨"bad story", "102", "422 Unprocessable"⟩] := ⟨rfl, rfl⟩

/-- Applying `lastOpt` to a two-or-more element list skips the head. -/
theorem lastOpt_cons_cons {α : Type} (a b : α) (l : List α) :
    lastOpt (a :: b :: l) = lastOpt (b :: l) := rfl

/-- Applying `lastOpt` to a non-empty list gives some. -/
theorem lastOpt_cons_isSome {α : Type} : ∀ (a : α) (l : List α),
    (lastOpt (a :: l)).isSome = true := by
  intro a l
  induction l generalizing a with
  | nil => rfl
  | cons b r ih => rw [lastOpt_cons_cons]; exact ih b

/-- Unfolding `lastOpt` over cons. -/
theorem lastOpt_cons_eq {α : Type} (a : α) (l : List α) :
    lastOpt (a :: l) =
      match lastOpt l with | some x => some x | none => some a := by
  cases l with
  | nil => rfl
  | cons b r =>
      rw [lastOpt_cons_cons]
      cases hl : lastOpt (b :: r) with
      | some x => rfl
      | none => exact absurd (hl ▸ lastOpt_cons_isSome b r) (by simp)

/-- The label fold of `assign_stories_to_epics` leaves `epic_id` at the last
map hit, if any. -/
theorem assignFold_epic_id (m : List (String × Nat)) :
    ∀ (ls : List Label) (ent : Entity),
      (ls.foldl (fun ent l =>
          match dictGet m l.name.val with
          | some eid => { ent with epic_id := some eid }
          | none => ent) ent).epic_id
      = match lastOpt (ls.filterMap (fun l => dictGet m l.name.val)) with
        | some e => some e
        | none => ent.epic_id := by
  intro ls
  induction ls with
  | nil => intro ent; rfl
  | cons l rest ih =>
      intro ent
      rw [List.foldl_cons, List.filterMap_cons]
      cases hd : dictGet m l.name.val with
      | none => simp only [hd]; exact ih ent
      | some eid =>
          simp only [hd, ih, lastOpt_cons_eq]
          cases lastOpt (rest.filterMap (fun l => dictGet m l.name.val)) <;> rfl

/-- Claim C6: for a story with no prior `epic_id`, epic linkage sets `epic_id`
to the LAST label (in label-list order) that hits the epic-label map — so the
match is that epic's id when exactly one label matches, `none` when no label
matches, and last-match-wins when several match. -/
theorem assign_epic_last_match_wins (m : List (String × Nat)) (s : Rec)
    (h : s.entity.epic_id = none) :
    (assignEpicOne m s).entity.epic_id = lastOpt (matchedEpicIds m s) := by
  unfold assignEpicOne matchedEpicIds
  rw [assignFold_epic_id]
  cases lastOpt ((s.entity.labels.getD []).filterMap (fun l => dictGet m l.name.val)) with
  | some e => rfl
  | none => exact h

/-- Witness for C6: with two matching labels (`alpha` then `beta`) the story
gets `beta`'s epic id 2, the last match. -/
theorem assign_epic_last_match_wins_witness :
    (assignEpicOne c6Map c6Story).entity.epic_id = some 2 :=
  (assign_epic_last_match_wins c6Map c6Story rfl).trans rfl

/-- Claim C8: a `release` source row builds a story whose type is rewritten to
`chore` and whose labels include the `pivotal-release` marker together with
the two run marker labels. -/
theorem release_rows_become_chores (ctx : Ctx) (r : Row) (rec : Rec)
    (hrel : r.story_type = "release")
    (hok : build_entity ctx r = Except.ok rec) :
    rec.type = "story" ∧ rec.entity.story_type = some "chore" ∧
    ∃ ls, rec.entity.labels = some ls ∧
      (⟨PIVOTAL_RELEASE_TYPE_LABEL⟩ : Label) ∈ ls ∧
      (⟨PIVOTAL_TO_SHORTCUT_LABEL⟩ : Label) ∈ ls ∧
      (⟨PIVOTAL_TO_SHORTCUT_RUN_LABEL⟩ : Label) ∈ ls := by
  have hne : r.story_type ≠ "epic" := by rw [hrel]; decide
  obtain ⟨wsid, cfs, _, _, hrec⟩ := build_entity_story_cases hne hok
  subst hrec
  refine ⟨rfl, by simp [mkStoryRec, hrel], ?_⟩
  by_cases hrev : truthyL r.reviewers = true
  · exact ⟨_, rfl, by simp [mkStoryRec, hrel, hrev], by simp [mkStoryRec, hrel, hrev],
      by simp [mkStoryRec, hrel, hrev]⟩
  · exact ⟨_, rfl, by simp [mkStoryRec, hrel, hrev], by simp [mkStoryRec, hrel, hrev],
      by simp [mkStoryRec, hrel, hrev]⟩

/-- Witness for C8: the concrete release row `c8Row` builds to a chore-typed
story carrying the release and run marker labels. -/
theorem release_rows_become_chores_witness :
    c8Rec.type = "story" ∧ c8Rec.entity.story_type = some "chore" ∧
    ∃ ls, c8Rec.entity.labels = some ls ∧
      (⟨PIVOTAL_RELEASE_TYPE_LABEL⟩ : Label) ∈ ls ∧
      (⟨PIVOTAL_TO_SHORTCUT_LABEL⟩ : Label) ∈ ls ∧
      (⟨PIVOTAL_TO_SHORTCUT_RUN_LABEL⟩ : Label) ∈ ls :=
  release_rows_become_chores {} c8Row c8Rec rfl rfl

/-- Claim C9: a story row whose non-empty `pt_state` is missing from the
workflow mapping makes `build_entity` raise (`KeyError`), and a mapped
`pt_state` yields exactly the mapped `workflow_state_id` on the built story. -/
theorem unmapped_workflow_state_raises (ctx : Ctx) (r : Row) (s : String)
    (hne : r.story_type ≠ "epic") (hps : r.pt_state = some s) (hs : s ≠ "") :
    (dictGet ctx.workflow_config s = none →
      build_entity ctx r = Except.error ("KeyError: " ++ s)) ∧
    (∀ v rec, dictGet ctx.workflow_config s = some v →
      build_entity ctx r = Except.ok rec →
      rec.entity.workflow_state_id = some v) := by
  constructor
  · intro hmiss
    have hw : getWorkflow ctx r = Except.error ("KeyError: " ++ s) := by
      unfold getWorkflow
      rw [hps]
      simp only [if_neg hs, hmiss]
    unfold build_entity
    rw [if_neg hne, hw]
  · intro v rec hfind hok
    obtain ⟨wsid, cfs, hw, _, hrec⟩ := build_entity_story_cases hne hok
    have hww : wsid = some v := by
      unfold getWorkflow at hw
      rw [hps] at hw
      simp only [if_neg hs, hfind] at hw
      injection hw with h
      exact h.symm
    subst hrec
    simp [mkStoryRec, hww]

/-- Witness for C9: with a workflow map knowing only `started`, the row in
state `unscheduled` raises and the row in state `started` gets id 500. -/
theorem unmapped_workflow_state_raises_witness :
    build_entity c9Ctx c9Row = Except.error ("KeyError: " ++ "unscheduled") ∧
    (mkStoryRec c9Ctx c9RowOk (some 500) none).entity.workflow_state_id = some 500 :=
  ⟨(unmapped_workflow_state_raises c9Ctx c9Row "unscheduled" (by decide) rfl (by decide)).1 rfl,
   (unmapped_workflow_state_raises c9Ctx c9RowOk "started" (by decide) rfl (by decide)).2
     500 (mkStoryRec c9Ctx c9RowOk (some 500) none) rfl rfl⟩

/-- Claim C7: a story row with a non-empty reviewers list gets exactly one
generated review comment appended after its migrated comments; its text is
the fixed header followed by one Markdown row per `(reviewer, type, status)`
triple with each cell's `|` escaped, and its author is the resolved requester
id (or `none` when unresolved). -/
theorem review_comment_generated (ctx : Ctx) (r : Row) (rec : Rec)
    (hne : r.story_type ≠ "epic") (hrev : truthyL r.reviewers = true)
    (hok : build_entity ctx r = Except.ok rec) :
    rec.entity.comments = some (r.comments.map (processComment ctx.user_config) ++
      [⟨reqIdOf ctx r, reviewCommentText (r.reviewers.getD []) r.review_types r.review_states⟩]) ∧
    (reviewRows (r.reviewers.getD []) r.review_types r.review_states).length =
      (zip3 (r.reviewers.getD []) r.review_types r.review_states).length := by
  obtain ⟨wsid, cfs, _, _, hrec⟩ := build_entity_story_cases hne hok
  subst hrec
  refine ⟨?_, by simp [reviewRows]⟩
  simp [mkStoryRec, hrev]

/-- Witness for C7: the reviewer `eve|l` yields a single review comment with
the escaped table row and no author (no requester on the row). -/
theorem review_comment_generated_witness :
    c7Rec.entity.comments = some (c7Row.comments.map (processComment ({} : Ctx).user_config) ++
      [⟨reqIdOf {} c7Row, reviewCommentText (c7Row.reviewers.getD []) c7Row.review_types c7Row.review_states⟩]) ∧
    (reviewRows (c7Row.reviewers.getD []) c7Row.review_types c7Row.review_states).length =
      (zip3 (c7Row.reviewers.getD []) c7Row.review_types c7Row.review_states).length :=
  review_comment_generated {} c7Row c7Rec (by decide) rfl rfl


/-- Membership in the present-key list. -/
theorem mem_presentKeys {e : Entity} {k : String} :
    k ∈ presentKeys e ↔ k ∈ allEntityKeys ∧ keyPresent e k = true := by
  simp [presentKeys, List.mem_filter]

/-- A payload without `group_ids`, `epic_id` and iteration dates carries only
story-allow-listed keys. -/
theorem presentKeys_sub_story (e : Entity)
    (h1 : e.group_ids = none) (h2 : e.epic_id = none)
    (h3 : e.start_date = none) (h4 : e.end_date = none) :
    presentKeys e ⊆ select_keys "story" := by
  intro k hk
  rw [mem_presentKeys] at hk
  obtain ⟨hmem, hpres⟩ := hk
  simp only [allEntityKeys, List.mem_cons, List.not_mem_nil, or_false] at hmem
  rcases hmem with rfl|rfl|rfl|rfl|rfl|rfl|rfl|rfl|rfl|rfl|rfl|rfl|rfl|rfl|rfl|rfl|rfl|rfl|rfl|rfl|rfl|rfl
  all_goals try decide
  · have hp : e.group_ids.isSome = true := hpres
    rw [h1] at hp; exact absurd hp (by decide)
  · have hp : e.epic_id.isSome = true := hpres
    rw [h2] at hp; exact absurd hp (by decide)
  · have hp : e.start_date.isSome = true := hpres
    rw [h3] at hp; exact absurd hp (by decide)
  · have hp : e.end_date.isSome = true := hpres
    rw [h4] at hp; exact absurd hp (by decide)

/-- A payload without `group_ids` and iteration dates carries only
story-allow-listed keys plus possibly `epic_id`. -/
theorem presentKeys_sub_story_epicid (e : Entity)
    (h1 : e.group_ids = none) (h3 : e.start_date = none) (h4 : e.end_date = none) :
    presentKeys e ⊆ select_keys "story" ++ ["epic_id"] := by
  intro k hk
  rw [mem_presentKeys] at hk
  obtain ⟨hmem, hpres⟩ := hk
  simp only [allEntityKeys, List.mem_cons, List.not_mem_nil, or_false] at hmem
  rcases hmem with rfl|rfl|rfl|rfl|rfl|rfl|rfl|rfl|rfl|rfl|rfl|rfl|rfl|rfl|rfl|rfl|rfl|rfl|rfl|rfl|rfl|rfl
  all_goals try decide
  · have hp : e.group_ids.isSome = true := hpres
    rw [h1] at hp; exact absurd hp (by decide)
  · have hp : e.start_date.isSome = true := hpres
    rw [h3] at hp; exact absurd hp (by decide)
  · have hp : e.end_date.isSome = true := hpres
    rw [h4] at hp; exact absurd hp (by decide)

/-- A payload with only the six epic fields carries only epic-allow-listed
keys. -/
theorem presentKeys_sub_epic (e : Entity)
    (h1 : e.comments = none) (h2 : e.custom_fields = none) (h3 : e.deadline = none)
    (h4 : e.estimate = none) (h5 : e.external_links = none) (h6 : e.follower_ids = none)
    (h7 : e.group_id = none) (h8 : e.iteration_id = none) (h9 : e.owner_ids = none)
    (h10 : e.requested_by_id = none) (h11 : e.story_type = none) (h12 : e.tasks = none)
    (h13 : e.workflow_state_id = none) (h14 : e.epic_id = none)
    (h15 : e.start_date = none) (h16 : e.end_date = none) :
    presentKeys e ⊆ select_keys "epic" := by
  intro k hk
  rw [mem_presentKeys] at hk
  obtain ⟨hmem, hpres⟩ := hk
  simp only [allEntityKeys, List.mem_cons, List.not_mem_nil, or_false] at hmem
  rcases hmem with rfl|rfl|rfl|rfl|rfl|rfl|rfl|rfl|rfl|rfl|rfl|rfl|rfl|rfl|rfl|rfl|rfl|rfl|rfl|rfl|rfl|rfl
  all_goals try decide
  · have hp : e.comments.isSome = true := hpres
    rw [h1] at hp; exact absurd hp (by decide)
  · have hp : e.custom_fields.isSome = true := hpres
    rw [h2] at hp; exact absurd hp (by decide)
  · have hp : e.deadline.isSome = true := hpres
    rw [h3] at hp; exact absurd hp (by decide)
  · have hp : e.estimate.isSome = true := hpres
    rw [h4] at hp; exact absurd hp (by decide)
  · have hp : e.external_links.isSome = true := hpres
    rw [h5] at hp; exact absurd hp (by decide)
  · have hp : e.follower_ids.isSome = true := hpres
    rw [h6] at hp; exact absurd hp (by decide)
  · have hp : e.group_id.isSome = true := hpres
    rw [h7] at hp; exact absurd hp (by decide)
  · have hp : e.iteration_id.isSome = true := hpres
    rw [h8] at hp; exact absurd hp (by decide)
  · have hp : e.owner_ids.isSome = true := hpres
    rw [h9] at hp; exact absurd hp (by decide)
  · have hp : e.requested_by_id.isSome = true := hpres
    rw [h10] at hp; exact absurd hp (by decide)
  · have hp : e.story_type.isSome = true := hpres
    rw [h11] at hp; exact absurd hp (by decide)
  · have hp : e.tasks.isSome = true := hpres
    rw [h12] at hp; exact absurd hp (by decide)
  · have hp : e.workflow_state_id.isSome = true := hpres
    rw [h13] at hp; exact absurd hp (by decide)
  · have hp : e.epic_id.isSome = true := hpres
    rw [h14] at hp; exact absurd hp (by decide)
  · have hp : e.start_date.isSome = true := hpres
    rw [h15] at hp; exact absurd hp (by decide)
  · have hp : e.end_date.isSome = true := hpres
    rw [h16] at hp; exact absurd hp (by decide)

/-- The epic-linkage fold touches only `epic_id`. -/
theorem assignFold_only_epic_id (m : List (String × Nat)) :
    ∀ (ls : List Label) (ent : Entity),
      ls.foldl (fun ent l =>
          match dictGet m l.name.val with
          | some eid => { ent with epic_id := some eid }
          | none => ent) ent
      = { ent with epic_id :=
            (ls.foldl (fun ent l =>
              match dictGet m l.name.val with
              | some eid => { ent with epic_id := some eid }
              | none => ent) ent).epic_id } := by
  intro ls
  induction ls with
  | nil => intro ent; rfl
  | cons l rest ih =>
      intro ent
      rw [List.foldl_cons]
      cases hd : dictGet m l.name.val with
      | none => simp only [hd]; exact ih ent
      | some eid => simp only [hd]; exact ih { ent with epic_id := some eid }

/-- The function `assignEpicOne` changes nothing but `epic_id`. -/
theorem assignEpicOne_entity (m : List (String × Nat)) (s : Rec) :
    (assignEpicOne m s).entity
      = { s.entity with epic_id := (assignEpicOne m s).entity.epic_id } ∧
    (assignEpicOne m s).type = s.type ∧
    (assignEpicOne m s).pt_iteration_id = s.pt_iteration_id := by
  refine ⟨?_, rfl, rfl⟩
  unfold assignEpicOne
  exact assignFold_only_epic_id m (s.entity.labels.getD []) s.entity

/-- A successful `assignIterOne` changes nothing but `iteration_id`; on a
truthy source iteration id the new value is the mapping lookup, and on a
falsy one the record is untouched. -/
theorem assignIterOne_ok_spec {m : List (String × Nat)} {s s' : Rec}
    (h : assignIterOne m s = Except.ok s') :
    s'.pt_iteration_id = s.pt_iteration_id ∧
    s'.type = s.type ∧
    s'.entity = { s.entity with iteration_id := s'.entity.iteration_id } ∧
    (truthyS s.pt_iteration_id = true →
      s'.entity.iteration_id = dictGet m (s.pt_iteration_id.getD "")) ∧
    (truthyS s.pt_iteration_id = false → s' = s) := by
  unfold assignIterOne at h
  by_cases ht : truthyS s.pt_iteration_id = true
  · rw [if_pos ht] at h
    cases hd : dictGet m (s.pt_iteration_id.getD "") with
    | none => rw [hd] at h; cases h
    | some n =>
        rw [hd] at h
        injection h with h
        subst h
        refine ⟨rfl, rfl, rfl, fun _ => by simp [hd], fun hf => ?_⟩
        simp [ht] at hf
  · rw [if_neg ht] at h
    injection h with h
    subst h
    exact ⟨rfl, rfl, rfl, fun htt => absurd htt ht, fun _ => rfl⟩

/-- The function `assignIterOne` succeeds whenever the mapping knows every truthy id. -/
theorem assignIterOne_ok_of (m : List (String × Nat)) (s : Rec)
    (h : truthyS s.pt_iteration_id = true →
      (dictGet m (s.pt_iteration_id.getD "")).isSome = true) :
    ∃ s', assignIterOne m s = Except.ok s' := by
  unfold assignIterOne
  by_cases ht : truthyS s.pt_iteration_id = true
  · rw [if_pos ht]
    cases hd : dictGet m (s.pt_iteration_id.getD "") with
    | none => rw [hd] at h; exact absurd (h ht) (by decide)
    | some n => exact ⟨_, rfl⟩
  · rw [if_neg ht]; exact ⟨_, rfl⟩

/-- Claim C4 (amended): the payload of every record built by `build_entity`
carries only allow-listed keys for its type, and a built story payload after
the epic and iteration linkage applied in `commit` carries only allow-listed
story keys plus possibly the `epic_id` added by epic linkage. -/
theorem payload_keys_allowlisted (ctx : Ctx) (r : Row) (rec : Rec)
    (hok : build_entity ctx r = Except.ok rec) :
    presentKeys rec.entity ⊆ select_keys rec.type ∧
    (∀ (em im : List (String × Nat)) (rec' : Rec), rec.type = "story" →
      assignIterOne im (assignEpicOne em rec) = Except.ok rec' →
      presentKeys rec'.entity ⊆ select_keys "story" ++ ["epic_id"]) := by
  by_cases hep : r.story_type = "epic"
  · have hrec : rec = mkEpicRec ctx r := by
      unfold build_entity at hok
      rw [if_pos hep] at hok
      injection hok with h
      exact h.symm
    subst hrec
    refine ⟨presentKeys_sub_epic _ rfl rfl rfl rfl rfl rfl rfl rfl rfl rfl rfl rfl rfl rfl rfl rfl, ?_⟩
    intro em im rec' hty _
    have hc : ("epic" : String) = "story" := hty
    exact absurd hc (by decide)
  · obtain ⟨wsid, cfs, _, _, hrec⟩ := build_entity_story_cases hep hok
    subst hrec
    refine ⟨presentKeys_sub_story _ rfl rfl rfl rfl, ?_⟩
    intro em im rec' _ hlink
    obtain ⟨_, _, hent, _, _⟩ := assignIterOne_ok_spec hlink
    obtain ⟨hent2, _, _⟩ := assignEpicOne_entity em (mkStoryRec ctx r wsid cfs)
    refine presentKeys_sub_story_epicid _ ?_ ?_ ?_
    · rw [hent, hent2]; rfl
    · rw [hent, hent2]; rfl
    · rw [hent, hent2]; rfl

/-- Claim C4 (failing run): after epic linkage in `commit`, the built story
`c4Story` (whose `projx` label matches the created epic) carries the
`epic_id` key, which is NOT in the story allow list — so a record is
submitted with an attribute outside `select_keys` of its type. -/
theorem payload_gains_epic_id_outside_allowlist :
    build_entity {} c4RowS = Except.ok c4Story ∧
    build_entity {} c4RowE = Except.ok c4Epic ∧
    c4Linked.type = "story" ∧
    "epic_id" ∈ presentKeys c4Linked.entity ∧
    ¬ "epic_id" ∈ select_keys "story" :=
  ⟨rfl, rfl, rfl, by decide, by decide⟩

/-- Witness for C4 (amended): the built story `c4Story` itself carries only
allow-listed keys. -/
theorem payload_keys_allowlisted_witness :
    presentKeys c4Story.entity ⊆ select_keys c4Story.type :=
  (payload_keys_allowlisted {} c4RowS c4Story rfl).1

/-- Membership in the deduplicating insert. -/
theorem mem_insertDedup {l : List String} {s k : String} :
    k ∈ insertDedup l s ↔ k ∈ l ∨ k = s := by
  unfold insertDedup
  by_cases h : s ∈ l
  · rw [if_pos h]
    constructor
    · exact Or.inl
    · rintro (hk | rfl)
      · exact hk
      · exact h
  · rw [if_neg h]
    simp

/-- The deduplicating insert preserves `Nodup`. -/
theorem nodup_insertDedup {l : List String} {s : String} (h : l.Nodup) :
    (insertDedup l s).Nodup := by
  unfold insertDedup
  by_cases hm : s ∈ l
  · rw [if_pos hm]; exact h
  · rw [if_neg hm]
    refine List.Nodup.append h (List.nodup_singleton s) ?_
    intro a ha hb
    rw [List.mem_singleton] at hb
    subst hb
    exact hm ha

/-- Membership in the accrued iteration-key set. -/
theorem mem_addKeys :
    ∀ (rs : List Rec) (acc : List String) (k : String),
      k ∈ addKeys acc rs ↔ k ∈ acc ∨ ∃ r ∈ rs, r.iteration = some k ∧ ¬ k = "" := by
  intro rs
  induction rs with
  | nil => intro acc k; simp [addKeys]
  | cons r rest ih =>
      intro acc k
      cases hit : r.iteration with
      | none =>
          simp only [addKeys, hit]
          rw [ih]
          simp [hit]
      | some s =>
          by_cases hs : s = ""
          · subst hs
            simp only [addKeys, hit, if_pos rfl]
            rw [ih]
            simp only [List.mem_cons, hit]
            constructor
            · rintro (h | ⟨r', hr', h1, h2⟩)
              · exact Or.inl h
              · exact Or.inr ⟨r', Or.inr hr', h1, h2⟩
            · rintro (h | ⟨r', (rfl | hr'), h1, h2⟩)
              · exact Or.inl h
              · rw [hit] at h1; injection h1 with h1; exact absurd h1.symm h2
              · exact Or.inr ⟨r', hr', h1, h2⟩
          · simp only [addKeys, hit, if_neg hs]
            rw [ih]
            simp only [List.mem_cons, mem_insertDedup]
            constructor
            · rintro ((h | rfl) | ⟨r', hr', h1, h2⟩)
              · exact Or.inl h
              · exact Or.inr ⟨r, Or.inl rfl, hit, hs⟩
              · exact Or.inr ⟨r', Or.inr hr', h1, h2⟩
            · rintro (h | ⟨r', (rfl | hr'), h1, h2⟩)
              · exact Or.inl (Or.inl h)
              · rw [hit] at h1; injection h1 with h1; exact Or.inl (Or.inr h1.symm)
              · exact Or.inr ⟨r', hr', h1, h2⟩

/-- The accrued iteration-key set stays `Nodup`. -/
theorem nodup_addKeys :
    ∀ (rs : List Rec) (acc : List String), acc.Nodup → (addKeys acc rs).Nodup := by
  intro rs
  induction rs with
  | nil => intro acc h; simpa [addKeys] using h
  | cons r rest ih =>
      intro acc h
      cases hit : r.iteration with
      | none => simp only [addKeys, hit]; exact ih _ h
      | some s =>
          by_cases hs : s = ""
          · simp only [addKeys, hit, if_pos hs]; exact ih _ h
          · simp only [addKeys, hit, if_neg hs]; exact ih _ (nodup_insertDedup h)

/-- Collecting a list of story records appends them to the story bucket and
accrues their iteration keys, leaving the other buckets alone. -/
theorem collectAll_stories :
    ∀ (rs : List Rec) (c0 : Collector), (∀ r ∈ rs, r.type = "story") →
      (collectAll c0 rs).1.stories = c0.stories ++ rs ∧
      (collectAll c0 rs).1.iteration_strings = addKeys c0.iteration_strings rs ∧
      (collectAll c0 rs).1.epics = c0.epics ∧
      (collectAll c0 rs).1.labels = c0.labels := by
  intro rs
  induction rs with
  | nil => intro c0 _; simp [collectAll, addKeys]
  | cons r rest ih =>
      intro c0 hty
      have hr : r.type = "story" := hty r (List.mem_cons_self r rest)
      have hcol : Collector.collect c0 r =
          ({ c0 with
              stories := c0.stories ++ [r],
              iteration_strings :=
                match r.iteration with
                | some s => if s = "" then c0.iteration_strings
                            else insertDedup c0.iteration_strings s
                | none => c0.iteration_strings }, Except.ok "story") := by
        unfold Collector.collect
        rw [if_pos hr]
      show (collectAll c0 (r :: rest)).1.stories = _ ∧ _
      unfold collectAll
      rw [hcol]
      obtain ⟨h1, h2, h3, h4⟩ := ih _ (fun r' hr' => hty r' (List.mem_cons_of_mem r hr'))
      refine ⟨?_, ?_, h3, h4⟩
      · rw [h1]; simp
      · rw [h2]; rfl

/-- The mock emitter preserves list length. -/
theorem mockEmit_fst_length : ∀ (n : Nat) (l : List Rec),
    ((mockEmit n l).1).length = l.length := by
  intro n l
  induction l generalizing n with
  | nil => rfl
  | cons r rest ih => simp [mockEmit, ih]

/-- Every mock-emitted record is an input record with only `imported_entity`
stamped. -/
theorem mockEmit_mem : ∀ (n : Nat) (l : List Rec) (r' : Rec),
    r' ∈ (mockEmit n l).1 →
      ∃ r ∈ l, ∃ m, r' = { r with imported_entity := some ⟨m, r.type⟩ } := by
  intro n l
  induction l generalizing n with
  | nil => intro r' h; cases h
  | cons r rest ih =>
      intro r' h
      have h' : r' = { r with imported_entity := some ⟨n, r.type⟩ } ∨
          r' ∈ (mockEmit (n + 1) rest).1 := List.mem_cons.mp h
      rcases h' with h1 | h1
      · exact ⟨r, List.mem_cons_self r rest, n, h1⟩
      · obtain ⟨r0, hr0, m, hm⟩ := ih (n + 1) r' h1
        exact ⟨r0, List.mem_cons_of_mem r hr0, m, hm⟩

/-- The mock emitter preserves any predicate that ignores `imported_entity`. -/
theorem mockEmit_countP (p : Rec → Bool)
    (hp : ∀ (r : Rec) (m : Nat), p { r with imported_entity := some ⟨m, r.type⟩ } = p r) :
    ∀ (n : Nat) (l : List Rec), ((mockEmit n l).1).countP p = l.countP p := by
  intro n l
  induction l generalizing n with
  | nil => rfl
  | cons r rest ih =>
      simp only [mockEmit, List.countP_cons, ih, hp]

/-- Looking up the inserted key. -/
theorem dictGet_dictInsert_self {α : Type} (d : List (String × α)) (k : String) (v : α) :
    dictGet (dictInsert d k v) k = some v := by
  induction d with
  | nil => simp [dictInsert, dictGet]
  | cons kv rest ih =>
      by_cases h : kv.1 = k
      · simp [dictInsert, dictGet, h]
      · cases kv
        simp_all [dictInsert, dictGet, h]

/-- Looking up another key passes through the insert. -/
theorem dictGet_dictInsert_ne {α : Type} (d : List (String × α)) (k k' : String) (v : α)
    (h : ¬ k' = k) :
    dictGet (dictInsert d k v) k' = dictGet d k' := by
  induction d with
  | nil =>
      show (if k = k' then some v else none) = none
      rw [if_neg (fun e => h e.symm)]
  | cons kv rest ih =>
      cases kv with
      | mk k0 v0 =>
          show dictGet (if k0 = k then (k, v) :: rest else (k0, v0) :: dictInsert rest k v) k' = _
          by_cases h0 : k0 = k
          · rw [if_pos h0]
            show (if k = k' then some v else dictGet rest k')
                = if k0 = k' then some v0 else dictGet rest k'
            rw [if_neg (fun e => h e.symm), if_neg (fun e => h (h0.symm.trans e).symm)]
          · rw [if_neg h0]
            show (if k0 = k' then some v0 else dictGet (dictInsert rest k v) k')
                = if k0 = k' then some v0 else dictGet rest k'
            by_cases h1 : k0 = k'
            · rw [if_pos h1, if_pos h1]
            · rw [if_neg h1, if_neg h1, ih]

/-- A left fold of keyed inserts looks up to the LAST list element carrying
the key. -/
theorem dictGet_fold_insert {α β : Type} (key : β → String) (val : β → α) :
    ∀ (l : List β) (d0 : List (String × α)) (k : String),
      dictGet (l.foldl (fun d x => dictInsert d (key x) (val x)) d0) k
      = match lastOpt (l.filter (fun x => key x == k)) with
        | some x => some (val x)
        | none => dictGet d0 k := by
  intro l
  induction l with
  | nil => intro d0 k; rfl
  | cons x rest ih =>
      intro d0 k
      rw [List.foldl_cons, List.filter_cons]
      by_cases hx : key x = k
      · rw [if_pos (by simp [hx]), lastOpt_cons_eq, ih]
        cases lastOpt (rest.filter (fun x => key x == k)) with
        | some y => rfl
        | none => rw [hx]; rw [dictGet_dictInsert_self]
      · rw [if_neg (by simp [hx]), ih]
        cases lastOpt (rest.filter (fun x => key x == k)) with
        | some y => rfl
        | none => exact dictGet_dictInsert_ne d0 (key x) k (val x) (fun e => hx e.symm)

/-- The mapping of `collect_pt_iteration_mapping` looks up to the last created iteration
carrying the id. -/
theorem pt_mapping_lookup (iters : List Rec) (k : String) :
    dictGet (collect_pt_iteration_mapping iters) k
      = match lastOpt (iters.filter (fun it => it.pt_iteration_id.getD "" == k)) with
        | some it => some ((it.imported_entity.map (fun ie => ie.id)).getD 0)
        | none => none := by
  unfold collect_pt_iteration_mapping
  rw [dictGet_fold_insert (fun it => it.pt_iteration_id.getD "")
        (fun it => (it.imported_entity.map (fun ie => ie.id)).getD 0) iters [] k]
  cases lastOpt (iters.filter (fun it => it.pt_iteration_id.getD "" == k)) <;> rfl

/-- A `Nodup` list with a unique element satisfying `p` has `countP p = 1`. -/
theorem countP_eq_one_of_unique {α : Type} (p : α → Bool) :
    ∀ (l : List α), l.Nodup → ∀ a ∈ l, p a = true →
      (∀ b ∈ l, p b = true → b = a) → l.countP p = 1 := by
  intro l
  induction l with
  | nil => intro _ a ha; cases ha
  | cons x rest ih =>
      intro hnd a ha hpa huniq
      rcases List.mem_cons.mp ha with rfl | ha'
      · have hz : rest.countP p = 0 := by
          rw [List.countP_eq_zero]
          intro b hb hpb
          have hba := huniq b (List.mem_cons_of_mem a hb) hpb
          subst hba
          exact absurd hb (List.nodup_cons.mp hnd).1
        rw [List.countP_cons, hz, hpa]
        simp
      · have hx : p x = false := by
          cases hhx : p x
          · rfl
          · have hxa := huniq x (List.mem_cons_self x rest) hhx
            subst hxa
            exact absurd ha' (List.nodup_cons.mp hnd).1
        rw [List.countP_cons, hx]
        have hr := ih (List.nodup_cons.mp hnd).2 a ha' hpa
          (fun b hb hpb => huniq b (List.mem_cons_of_mem x hb) hpb)
        simpa using hr

/-- The iteration-linkage loop succeeds when the mapping knows every truthy
id, preserving order, length, and the source iteration ids, and setting each
truthy story's `iteration_id` to its mapping entry. -/
theorem assignItersList_spec (m : List (String × Nat)) :
    ∀ (ss : List Rec),
      (∀ s ∈ ss, truthyS s.pt_iteration_id = true →
        (dictGet m (s.pt_iteration_id.getD "")).isSome = true) →
      ∃ out, assignItersList m ss = Except.ok out ∧ out.length = ss.length ∧
        ∀ s' ∈ out, ∃ s ∈ ss, s'.pt_iteration_id = s.pt_iteration_id ∧
          (truthyS s.pt_iteration_id = true →
            s'.entity.iteration_id = dictGet m (s.pt_iteration_id.getD "")) := by
  intro ss
  induction ss with
  | nil => intro _; exact ⟨[], rfl, rfl, by intro s' h; cases h⟩
  | cons s rest ih =>
      intro hpre
      obtain ⟨s', hs'⟩ :=
        assignIterOne_ok_of m s (hpre s (List.mem_cons_self s rest))
      obtain ⟨out, hout, hlen, hmem⟩ :=
        ih (fun t ht htr => hpre t (List.mem_cons_of_mem s ht) htr)
      refine ⟨s' :: out, ?_, by simp [hlen], ?_⟩
      · show assignItersList m (s :: rest) = Except.ok (s' :: out)
        simp only [assignItersList, hs', hout]
      · intro t ht
        rcases List.mem_cons.mp ht with rfl | ht'
        · obtain ⟨hpt, _, _, htru, _⟩ := assignIterOne_ok_spec hs'
          exact ⟨s, List.mem_cons_self s rest, hpt, htru⟩
        · obtain ⟨s0, hs0, hh⟩ := hmem t ht'
          exact ⟨s0, List.mem_cons_of_mem s hs0, hh⟩

/-- The dry-run story-batch loop, given enough fuel and a mapping that knows
every truthy id, returns all stories with iteration linkage applied. -/
theorem processChunksDry_spec (em itersDone : List Rec) :
    ∀ (fuel : Nat) (ss : List Rec) (n : Nat), ss.length ≤ fuel →
      (∀ s ∈ ss, truthyS s.pt_iteration_id = true →
        (dictGet (collect_pt_iteration_mapping itersDone)
          (s.pt_iteration_id.getD "")).isSome = true) →
      ∃ out n', processChunksDry em itersDone fuel n ss = Except.ok (out, n') ∧
        out.length = ss.length ∧
        ∀ s' ∈ out, ∃ s ∈ ss, s'.pt_iteration_id = s.pt_iteration_id ∧
          (truthyS s.pt_iteration_id = true →
            s'.entity.iteration_id =
              dictGet (collect_pt_iteration_mapping itersDone)
                (s.pt_iteration_id.getD "")) := by
  intro fuel
  induction fuel with
  | zero =>
      intro ss n hle _
      have hnil : ss = [] := List.eq_nil_of_length_eq_zero (Nat.le_zero.mp hle)
      subst hnil
      exact ⟨[], n, rfl, rfl, by intro s' h; cases h⟩
  | succ fuel ih =>
      intro ss n hle hpre
      cases ss with
      | nil => exact ⟨[], n, rfl, rfl, by intro s' h; cases h⟩
      | cons s0 rest0 =>
          have hb1pre : ∀ t ∈ assign_stories_to_epics ((s0 :: rest0).take BATCH_SIZE) em,
              truthyS t.pt_iteration_id = true →
              (dictGet (collect_pt_iteration_mapping itersDone)
                (t.pt_iteration_id.getD "")).isSome = true := by
            intro t ht htr
            obtain ⟨u, hu, rfl⟩ := List.mem_map.mp ht
            obtain ⟨_, _, hupt⟩ := assignEpicOne_entity (collect_epic_label_mapping em) u
            rw [hupt] at htr ⊢
            exact hpre u (List.mem_of_mem_take hu) htr
          obtain ⟨b2, hb2, hlen2, hmem2⟩ :=
            assignItersList_spec (collect_pt_iteration_mapping itersDone)
              (assign_stories_to_epics ((s0 :: rest0).take BATCH_SIZE) em) hb1pre
          have hdroplen : ((s0 :: rest0).drop BATCH_SIZE).length ≤ fuel := by
            rw [List.length_drop]
            have hB : BATCH_SIZE = 100 := rfl
            simp only [List.length_cons] at hle ⊢
            rw [hB]
            omega
          obtain ⟨outR, n2, hR, hRlen, hRmem⟩ :=
            ih ((s0 :: rest0).drop BATCH_SIZE) (mockEmit n b2).2 hdroplen
              (fun t ht htr => hpre t (List.mem_of_mem_drop ht) htr)
          refine ⟨(mockEmit n b2).1 ++ outR, n2, ?_, ?_, ?_⟩
          · show processChunksDry em itersDone (fuel + 1) n (s0 :: rest0) = _
            simp only [processChunksDry, assign_stories_to_iterations, hb2, hR]
          · rw [List.length_append, mockEmit_fst_length, hlen2]
            unfold assign_stories_to_epics
            rw [List.length_map, hRlen, List.length_take, List.length_drop]
            simp only [List.length_cons]
            omega
          · intro t ht
            rcases List.mem_append.mp ht with hte | htr'
            · obtain ⟨rb, hrb, mm, rfl⟩ := mockEmit_mem n b2 t hte
              obtain ⟨u1, hu1, hpt1, hiter1⟩ := hmem2 rb hrb
              obtain ⟨u, hu, rfl⟩ := List.mem_map.mp hu1
              obtain ⟨_, _, hupt⟩ :=
                assignEpicOne_entity (collect_epic_label_mapping em) u
              refine ⟨u, List.mem_of_mem_take hu, ?_, ?_⟩
              · show rb.pt_iteration_id = u.pt_iteration_id
                rw [hpt1, hupt]
              · intro htru
                show rb.entity.iteration_id = _
                rw [hiter1 (by rw [hupt]; exact htru), hupt]
            · obtain ⟨u, hu, hh1, hh2⟩ := hRmem t htr'
              exact ⟨u, List.mem_of_mem_drop hu, hh1, hh2⟩

/-- Every input record appears (stamped) in the mock emitter's output. -/
theorem mockEmit_mem_of : ∀ (n : Nat) (l : List Rec) (r : Rec), r ∈ l →
    ∃ m, { r with imported_entity := some ⟨m, r.type⟩ } ∈ (mockEmit n l).1 := by
  intro n l
  induction l generalizing n with
  | nil => intro r h; cases h
  | cons x rest ih =>
      intro r h
      rcases List.mem_cons.mp h with rfl | h'
      · exact ⟨n, List.mem_cons_self _ _⟩
      · obtain ⟨m, hm⟩ := ih (n + 1) r h'
        exact ⟨m, List.mem_cons_of_mem _ hm⟩

/-- Applying `lastOpt` to a non-empty list yields `some`. -/
theorem lastOpt_isSome_of_ne_nil {α : Type} {l : List α} (h : l ≠ []) :
    (lastOpt l).isSome = true := by
  cases l with
  | nil => exact absurd rfl h
  | cons a rest => exact lastOpt_cons_isSome a rest

/-- A truthy optional string is a concrete non-empty string. -/
theorem truthyS_some {o : Option String} (h : truthyS o = true) :
    ∃ x, o = some x ∧ ¬ x = "" ∧ o.getD "" = x := by
  cases o with
  | none => cases h
  | some x =>
      refine ⟨x, rfl, ?_, rfl⟩
      have := of_decide_eq_true h
      exact this

/-- An iteration-consistent record with a truthy id carries a non-empty key
whose first field is the id. -/
theorem iterKey_truthy {r : Rec} (hc : iterKeyConsistent r = true)
    (ht : truthyS r.pt_iteration_id = true) :
    ∃ k, r.iteration = some k ∧ ¬ k = "" ∧
      (splitPipe k).getD 0 "" = r.pt_iteration_id.getD "" := by
  unfold iterKeyConsistent at hc
  rw [if_pos ht] at hc
  cases hit : r.iteration with
  | none => rw [hit] at hc; cases hc
  | some k =>
      rw [hit] at hc
      obtain ⟨h1, h2⟩ := (Bool.and_eq_true _ _).mp hc
      refine ⟨k, rfl, ?_, ?_⟩
      · intro he
        rw [he] at h1
        cases h1
      · exact eq_of_beq h2

/-- An iteration-consistent record with a falsy id carries no key. -/
theorem iterKey_falsy {r : Rec} (hc : iterKeyConsistent r = true)
    (ht : truthyS r.pt_iteration_id = false) : r.iteration = none := by
  unfold iterKeyConsistent at hc
  rw [if_neg (by rw [ht]; exact Bool.false_ne_true)] at hc
  exact eq_of_beq hc

/-- Under per-id key agreement, at most one accrued key has a given first
field. -/
theorem addKeys_head_unique (rs : List Rec) (i : String)
    (hcons : ∀ r ∈ rs, iterKeyConsistent r = true)
    (hsame : ∀ r ∈ rs, ∀ r' ∈ rs,
      r.pt_iteration_id = r'.pt_iteration_id → r.iteration = r'.iteration) :
    ∀ k1 ∈ addKeys [] rs, ∀ k2 ∈ addKeys [] rs,
      (splitPipe k1).getD 0 "" = i → (splitPipe k2).getD 0 "" = i → k1 = k2 := by
  intro k1 h1 k2 h2 hh1 hh2
  have h1' := ((mem_addKeys rs [] k1).mp h1).resolve_left (by simp)
  have h2' := ((mem_addKeys rs [] k2).mp h2).resolve_left (by simp)
  obtain ⟨r1, hr1, hit1, _⟩ := h1'
  obtain ⟨r2, hr2, hit2, _⟩ := h2'
  have ht1 : truthyS r1.pt_iteration_id = true := by
    cases hb : truthyS r1.pt_iteration_id
    · rw [iterKey_falsy (hcons r1 hr1) hb] at hit1; cases hit1
    · rfl
  have ht2 : truthyS r2.pt_iteration_id = true := by
    cases hb : truthyS r2.pt_iteration_id
    · rw [iterKey_falsy (hcons r2 hr2) hb] at hit2; cases hit2
    · rfl
  obtain ⟨ka, hka, _, hha⟩ := iterKey_truthy (hcons r1 hr1) ht1
  obtain ⟨kb, hkb, _, hhb⟩ := iterKey_truthy (hcons r2 hr2) ht2
  rw [hit1] at hka
  injection hka with hka
  rw [hit2] at hkb
  injection hkb with hkb
  subst hka
  subst hkb
  obtain ⟨x1, hx1, _, hg1⟩ := truthyS_some ht1
  obtain ⟨x2, hx2, _, hg2⟩ := truthyS_some ht2
  have hxi1 : x1 = i := by rw [← hg1, ← hha, hh1]
  have hxi2 : x2 = i := by rw [← hg2, ← hhb, hh2]
  have hpteq : r1.pt_iteration_id = r2.pt_iteration_id := by
    rw [hx1, hx2, hxi1, hxi2]
  have := hsame r1 hr1 r2 hr2 hpteq
  rw [hit1, hit2] at this
  injection this

/-- The iterations phase of a dry-run `commit` over collected story records:
under per-id key agreement, exactly one created iteration carries the id `i`,
the iteration mapping resolves `i` to that iteration's emitted id, and the
mapping knows every truthy source iteration id of the records. -/
theorem iterations_stage (rs : List Rec) (i : String) (n2 : Nat)
    (hcons : ∀ r ∈ rs, iterKeyConsistent r = true)
    (hsame : ∀ r ∈ rs, ∀ r' ∈ rs,
      r.pt_iteration_id = r'.pt_iteration_id → r.iteration = r'.iteration)
    (hex : ∃ r ∈ rs, r.pt_iteration_id = some i ∧ ¬ i = "") :
    (((mockEmit n2 ((addKeys [] rs).map mkIterRec)).1.filter
        (fun it => it.pt_iteration_id == some i)).length = 1) ∧
    ∃ n,
      dictGet (collect_pt_iteration_mapping
          (mockEmit n2 ((addKeys [] rs).map mkIterRec)).1) i = some n ∧
      (∀ it ∈ (mockEmit n2 ((addKeys [] rs).map mkIterRec)).1,
         it.pt_iteration_id = some i →
         it.imported_entity.map (fun ie => ie.id) = some n) ∧
      (∀ s ∈ rs, truthyS s.pt_iteration_id = true →
         (dictGet (collect_pt_iteration_mapping
             (mockEmit n2 ((addKeys [] rs).map mkIterRec)).1)
           (s.pt_iteration_id.getD "")).isSome = true) := by
  obtain ⟨r0, hr0, hpt0, hine⟩ := hex
  have hKnd : (addKeys [] rs).Nodup := nodup_addKeys rs [] List.nodup_nil
  have ht0 : truthyS r0.pt_iteration_id = true := by
    rw [hpt0]
    simp [truthyS, hine]
  obtain ⟨k0, hit0, hk0ne, hhead0'⟩ := iterKey_truthy (hcons r0 hr0) ht0
  have hhead0 : (splitPipe k0).getD 0 "" = i := by
    rw [hhead0', hpt0]
    rfl
  have hk0K : k0 ∈ addKeys [] rs :=
    (mem_addKeys rs [] k0).mpr (Or.inr ⟨r0, hr0, hit0, hk0ne⟩)
  -- exactly one accrued key has first field i, hence exactly one created
  -- iteration carries the id
  have hcnt : (addKeys [] rs).countP (fun k => ((splitPipe k).getD 0 "" == i)) = 1 := by
    refine countP_eq_one_of_unique _ (addKeys [] rs) hKnd k0 hk0K ?_ ?_
    · rw [hhead0]
      exact beq_self_eq_true i
    · intro b hb hpb
      exact addKeys_head_unique rs i hcons hsame b hb k0 hk0K (eq_of_beq hpb) hhead0
  have hEcnt : ((mockEmit n2 ((addKeys [] rs).map mkIterRec)).1.countP
      (fun it => it.pt_iteration_id == some i)) = 1 := by
    rw [mockEmit_countP (fun it => it.pt_iteration_id == some i) (fun r m => rfl),
      List.countP_map]
    rw [List.countP_congr (fun k _ => Iff.rfl)]
    exact hcnt
  have hflen : (((mockEmit n2 ((addKeys [] rs).map mkIterRec)).1.filter
      (fun it => it.pt_iteration_id == some i)).length = 1) := by
    rw [← List.countP_eq_length_filter]
    exact hEcnt
  refine ⟨hflen, ?_⟩
  obtain ⟨it0, hfil⟩ := List.length_eq_one.mp hflen
  have hit0mem : it0 ∈ (mockEmit n2 ((addKeys [] rs).map mkIterRec)).1 ∧
      (it0.pt_iteration_id == some i) = true := by
    have : it0 ∈ (mockEmit n2 ((addKeys [] rs).map mkIterRec)).1.filter
        (fun it => it.pt_iteration_id == some i) := by
      rw [hfil]
      exact List.mem_cons_self it0 []
    exact List.mem_filter.mp this
  obtain ⟨rME, hrME, mm, hstamp⟩ := mockEmit_mem _ _ _ hit0mem.1
  have himp0 : it0.imported_entity = some ⟨mm, rME.type⟩ := by rw [hstamp]
  -- every created iteration has a some-valued pt id, so the two filter
  -- predicates agree
  have hqp : ∀ it ∈ (mockEmit n2 ((addKeys [] rs).map mkIterRec)).1,
      (it.pt_iteration_id.getD "" == i) = (it.pt_iteration_id == some i) := by
    intro it hitE
    obtain ⟨rM, hrM, m2, hst⟩ := mockEmit_mem _ _ _ hitE
    obtain ⟨k, _, hkM⟩ := List.mem_map.mp hrM
    have hpt : it.pt_iteration_id = some ((splitPipe k).getD 0 "") := by
      rw [hst, ← hkM]
      rfl
    rw [hpt]
    rfl
  have hfilq : ((mockEmit n2 ((addKeys [] rs).map mkIterRec)).1.filter
      (fun it => it.pt_iteration_id.getD "" == i)) = [it0] := by
    rw [List.filter_congr hqp]
    exact hfil
  refine ⟨mm, ?_, ?_, ?_⟩
  · rw [pt_mapping_lookup, hfilq]
    show some ((it0.imported_entity.map (fun ie => ie.id)).getD 0) = some mm
    rw [himp0]
    rfl
  · intro it hitE hpti
    have : it ∈ (mockEmit n2 ((addKeys [] rs).map mkIterRec)).1.filter
        (fun it => it.pt_iteration_id == some i) :=
      List.mem_filter.mpr ⟨hitE, by rw [hpti]; exact beq_self_eq_true (some i)⟩
    rw [hfil] at this
    rcases List.mem_cons.mp this with rfl | hc
    · rw [himp0]; rfl
    · cases hc
  · intro s hs hts
    obtain ⟨k, hitk, hkne, hheadk⟩ := iterKey_truthy (hcons s hs) hts
    have hkK : k ∈ addKeys [] rs :=
      (mem_addKeys rs [] k).mpr (Or.inr ⟨s, hs, hitk, hkne⟩)
    have hkM : mkIterRec k ∈ (addKeys [] rs).map mkIterRec :=
      List.mem_map.mpr ⟨k, hkK, rfl⟩
    obtain ⟨m3, hm3⟩ := mockEmit_mem_of n2 _ _ hkM
    have hq : (({ mkIterRec k with
        imported_entity := some ⟨m3, (mkIterRec k).type⟩ } : Rec).pt_iteration_id.getD ""
          == s.pt_iteration_id.getD "") = true := by
      show (((splitPipe k).getD 0 "" : String) == s.pt_iteration_id.getD "") = true
      rw [hheadk]
      exact beq_self_eq_true _
    have hne : (mockEmit n2 ((addKeys [] rs).map mkIterRec)).1.filter
        (fun it => it.pt_iteration_id.getD "" == s.pt_iteration_id.getD "") ≠ [] :=
      List.ne_nil_of_mem (List.mem_filter.mpr ⟨hm3, hq⟩)
    rw [pt_mapping_lookup]
    cases hlast : lastOpt ((mockEmit n2 ((addKeys [] rs).map mkIterRec)).1.filter
        (fun it => it.pt_iteration_id.getD "" == s.pt_iteration_id.getD "")) with
    | none =>
        have := lastOpt_isSome_of_ne_nil hne
        rw [hlast] at this
        cases this
    | some y => rfl

/-- Claim C5 (amended): over collected story records in which every source
iteration id comes with a single iteration key (same id ⇒ same start/end
dates), a dry-run `commit` creates exactly one target iteration for the id
`i`, and every story from the rows referencing `i` ends up with the same
`iteration_id`, equal to that single created iteration's emitted id. -/
theorem iteration_dedup_and_linkage (c0 : Collector) (rs : List Rec) (i : String) (n0 : Nat)
    (hc0s : c0.stories = []) (hc0i : c0.iteration_strings = [])
    (hty : ∀ r ∈ rs, r.type = "story")
    (hcons : ∀ r ∈ rs, iterKeyConsistent r = true)
    (hsame : ∀ r ∈ rs, ∀ r' ∈ rs,
      r.pt_iteration_id = r'.pt_iteration_id → r.iteration = r'.iteration)
    (hex : ∃ r ∈ rs, r.pt_iteration_id = some i ∧ ¬ i = "") :
    ∃ out, commitDryRun n0 (collectAll c0 rs).1 = Except.ok out ∧
      (out.iterations.filter (fun it => it.pt_iteration_id == some i)).length = 1 ∧
      ∃ n, (∀ it ∈ out.iterations, it.pt_iteration_id = some i →
              it.imported_entity.map (fun ie => ie.id) = some n) ∧
        out.stories.length = rs.length ∧
        ∀ s ∈ out.stories, s.pt_iteration_id = some i →
          s.entity.iteration_id = some n := by
  obtain ⟨r0, hr0, hpt0, hine⟩ := hex
  obtain ⟨hst, hits, _, _⟩ := collectAll_stories rs c0 hty
  have hstories : (collectAll c0 rs).1.stories = rs := by
    rw [hst, hc0s]
    exact List.nil_append rs
  have hkeys : (collectAll c0 rs).1.iteration_strings = addKeys [] rs := by
    rw [hits, hc0i]
  obtain ⟨hflen, n, hdict, hiter, hpre⟩ :=
    iterations_stage rs i
      (mockEmit (mockEmit n0 (collectAll c0 rs).1.labels).2 (collectAll c0 rs).1.epics).2
      hcons hsame ⟨r0, hr0, hpt0, hine⟩
  obtain ⟨outS, n4, hrun, hlen, hmem⟩ :=
    processChunksDry_spec
      (mockEmit (mockEmit n0 (collectAll c0 rs).1.labels).2 (collectAll c0 rs).1.epics).1
      (mockEmit
        (mockEmit (mockEmit n0 (collectAll c0 rs).1.labels).2 (collectAll c0 rs).1.epics).2
        ((addKeys [] rs).map mkIterRec)).1
      rs.length rs
      (mockEmit
        (mockEmit (mockEmit n0 (collectAll c0 rs).1.labels).2 (collectAll c0 rs).1.epics).2
        ((addKeys [] rs).map mkIterRec)).2
      (le_refl rs.length) hpre
  refine ⟨⟨(mockEmit n0 (collectAll c0 rs).1.labels).1,
      (mockEmit (mockEmit n0 (collectAll c0 rs).1.labels).2 (collectAll c0 rs).1.epics).1,
      (mockEmit
        (mockEmit (mockEmit n0 (collectAll c0 rs).1.labels).2 (collectAll c0 rs).1.epics).2
        ((addKeys [] rs).map mkIterRec)).1,
      outS, n4⟩, ?_, hflen, n, hiter, hlen, ?_⟩
  · show commitDryRun n0 (collectAll c0 rs).1 = _
    simp only [commitDryRun]
    rw [hkeys, hstories, hrun]
  · intro s' hs' hpti
    obtain ⟨s, hsrs, hpt, himp⟩ := hmem s' hs'
    have hspt : s.pt_iteration_id = some i := by rw [← hpt]; exact hpti
    have htru : truthyS s.pt_iteration_id = true := by
      rw [hspt]
      simp [truthyS, hine]
    rw [himp htru, hspt]
    exact hdict

/-- Claim C5 (failing run): four collected stories all reference Pivotal
iteration id "1", two with dates `a..b` and two with dates `c..d`.  One
iteration is created per distinct key (ids 0 and 1), but the id-keyed
mapping collapses to the LAST one, so the two rows of triple `(1, a, b)` end
up with `iteration_id` 1 — not the id 0 of the single iteration created for
their triple. -/
theorem iteration_id_collision_counterexample :
    (∀ r ∈ c5CexRecs, iterKeyConsistent r = true) ∧
    (commitDryRun 0 (collectAll {} c5CexRecs).1).map
        (fun out =>
          (out.iterations.map (fun it =>
              (it.pt_iteration_id, it.entity.start_date,
               it.imported_entity.map (fun ie => ie.id))),
           out.stories.map (fun s => (s.pt_iteration_id, s.entity.iteration_id))))
      = Except.ok
          ([(some "1", some "a", some 0), (some "1", some "c", some 1)],
           [(some "1", some 1), (some "1", some 1), (some "1", some 1),
            (some "1", some 1)]) := by
  constructor
  · intro r hr
    fin_cases hr <;> rfl
  · rfl

/-- Witness for C5 (amended): two stories sharing the triple `7 / s1 / e1`
yield one created iteration and a common `iteration_id` equal to its id. -/
theorem iteration_dedup_and_linkage_witness :
    ∃ out, commitDryRun 0 (collectAll {} c5WitRecs).1 = Except.ok out ∧
      (out.iterations.filter (fun it => it.pt_iteration_id == some "7")).length = 1 ∧
      ∃ n, (∀ it ∈ out.iterations, it.pt_iteration_id = some "7" →
              it.imported_entity.map (fun ie => ie.id) = some n) ∧
        out.stories.length = c5WitRecs.length ∧
        ∀ s ∈ out.stories, s.pt_iteration_id = some "7" →
          s.entity.iteration_id = some n :=
  iteration_dedup_and_linkage {} c5WitRecs "7" 0 rfl rfl
    (by intro r hr; fin_cases hr <;> rfl)
    (by intro r hr; fin_cases hr <;> rfl)
    (by intro r hr r' hr' _; fin_cases hr <;> fin_cases hr' <;> rfl)
    ⟨{ type := "story", entity := {}, iteration := some "7|s1|e1",
       pt_iteration_id := some "7" },
     List.mem_cons_self _ _, rfl, by decide⟩

/-- An empty write leaves the Ledger file alone (the source's early return). -/
theorem writeImportedCSV_nil (led : Ledger) (b : Bool) :
    writeImportedCSV led [] b = led := rfl

/-- An append-mode write extends the Ledger. -/
theorem writeImportedCSV_append_extends (led : Ledger) (ents : List Imported) :
    led <+: writeImportedCSV led ents false := by
  unfold writeImportedCSV
  by_cases h : ents.isEmpty
  · rw [if_pos h]
  · rw [if_neg h]
    refine ⟨ents.map (fun ie => (ie.entity_type, ie.id)), ?_⟩
    simp

/-- One live batch only appends to the Ledger. -/
theorem scProcessBatch_ledger_extends (bulk : BulkFn) (st : LiveSt) (succ batch : List Rec) :
    st.ledger <+: (scProcessBatch bulk st succ batch).1.ledger := by
  unfold scProcessBatch
  by_cases h : batch.isEmpty
  · rw [if_pos h]
  · rw [if_neg h]
    cases bulk (batch.map (fun s => s.entity)) with
    | ok created => exact writeImportedCSV_append_extends st.ledger created
    | error e => exact List.prefix_refl _

/-- The chunked live story loop only appends to the Ledger. -/
theorem scStoryChunks_ledger_extends (bulk : BulkFn) :
    ∀ (fuel : Nat) (st : LiveSt) (succ ss : List Rec),
      st.ledger <+: (scStoryChunks bulk fuel st succ ss).1.ledger := by
  intro fuel
  induction fuel with
  | zero =>
      intro st succ ss
      cases ss with
      | nil => exact List.prefix_refl _
      | cons s rest => exact List.prefix_refl _
  | succ fuel ih =>
      intro st succ ss
      cases ss with
      | nil => exact List.prefix_refl _
      | cons s rest =>
          exact (scProcessBatch_ledger_extends bulk st succ
              ((s :: rest).take BATCH_SIZE)).trans
            (ih (scProcessBatch bulk st succ ((s :: rest).take BATCH_SIZE)).1
              (scProcessBatch bulk st succ ((s :: rest).take BATCH_SIZE)).2
              ((s :: rest).drop BATCH_SIZE))

/-- The non-story loop only appends to the Ledger. -/
theorem scNonStories_ledger_extends (post : PostFn) :
    ∀ (items : List Rec) (st : LiveSt) (succ : List Rec) (st' : LiveSt) (succ' : List Rec),
      scNonStories post st succ items = Except.ok (st', succ') →
      st.ledger <+: st'.ledger := by
  intro items
  induction items with
  | nil =>
      intro st succ st' succ' h
      injection h with h
      injection h with h1 h2
      rw [h1]
  | cons item rest ih =>
      intro st succ st' succ' h
      simp only [scNonStories] at h
      by_cases hst : item.type = "story"
      · rw [if_pos hst] at h
        exact ih st succ st' succ' h
      · rw [if_neg hst] at h
        by_cases he : item.type = "epic"
        · simp only [if_pos he] at h
          cases hp : post "/epics" item.entity with
          | ok res =>
              rw [hp] at h
              exact (writeImportedCSV_append_extends st.ledger [res]).trans
                (ih _ _ _ _ h)
          | error e => rw [hp] at h; cases h
        · simp only [if_neg he] at h
          by_cases hi : item.type = "iteration"
          · simp only [if_pos hi] at h
            cases hp : post "/iterations" item.entity with
            | ok res =>
                rw [hp] at h
                exact (writeImportedCSV_append_extends st.ledger [res]).trans
                  (ih _ _ _ _ h)
            | error e => rw [hp] at h; cases h
          · simp only [if_neg hi] at h
            by_cases hl : item.type = "label"
            · simp only [if_pos hl] at h
              cases hp : post "/labels" item.entity with
              | ok res =>
                  rw [hp] at h
                  exact (writeImportedCSV_append_extends st.ledger [res]).trans
                    (ih _ _ _ _ h)
              | error e => rw [hp] at h; cases h
            · simp only [if_neg hl] at h
              cases h

/-- The live emitter only appends to the Ledger. -/
theorem sc_creator_ledger_extends (post : PostFn) (bulk : BulkFn)
    (st : LiveSt) (items : List Rec) (st' : LiveSt) (succ : List Rec)
    (h : sc_creator post bulk st items = Except.ok (st', succ)) :
    st.ledger <+: st'.ledger := by
  unfold sc_creator at h
  cases hns : scNonStories post { st with ledger := writeImportedCSV st.ledger [] true }
      [] items with
  | error e => rw [hns] at h; cases h
  | ok val =>
      cases val with
      | mk st1 succ1 =>
          rw [hns] at h
          have h' : (Except.ok (scStoryChunks bulk
                (items.filter (fun i => i.type = "story")).length
                st1 succ1 (items.filter (fun i => i.type = "story")))
              : Except String (LiveSt × List Rec)) = Except.ok (st', succ) := h
          injection h' with h'
          have h1 : st.ledger <+: st1.ledger := by
            have := scNonStories_ledger_extends post items _ [] st1 succ1 hns
            rw [writeImportedCSV_nil] at this
            exact this
          have h2 := scStoryChunks_ledger_extends bulk
            (items.filter (fun i => i.type = "story")).length st1 succ1
            (items.filter (fun i => i.type = "story"))
          rw [h'] at h2
          exact h1.trans h2

/-- Every snapshot the live story loop takes extends the Ledger it started
from, and each later snapshot extends the previous one. -/
theorem liveStoryChunks_chain (post : PostFn) (bulk : BulkFn) (em it : List Rec) :
    ∀ (fuel : Nat) (written : List (String × Nat)) (st : LiveSt) (ss : List Rec)
      (stF : LiveSt) (snaps : List Ledger),
      liveStoryChunks post bulk em it fuel written st ss = Except.ok (stF, snaps) →
      ledgerChain st.ledger snaps := by
  intro fuel
  induction fuel with
  | zero =>
      intro written st ss stF snaps h
      cases ss with
      | nil =>
          injection h with h
          injection h with _ h2
          rw [← h2]
          exact trivial
      | cons s rest =>
          injection h with h
          injection h with _ h2
          rw [← h2]
          exact trivial
  | succ fuel ih =>
      intro written st ss stF snaps h
      cases ss with
      | nil =>
          injection h with h
          injection h with _ h2
          rw [← h2]
          exact trivial
      | cons s0 rest0 =>
          simp only [liveStoryChunks] at h
          cases ha : assign_stories_to_iterations
              (assign_stories_to_epics ((s0 :: rest0).take BATCH_SIZE) em) it with
          | error e => rw [ha] at h; cases h
          | ok b2 =>
              rw [ha] at h
              simp only [] at h
              cases hc : sc_creator post bulk st b2 with
              | ok val =>
                  cases val with
                  | mk st' created =>
                      rw [hc] at h
                      simp only [] at h
                      cases hr : liveStoryChunks post bulk em it fuel
                          (written ++ ((importedOf created).filter
                            (fun i => ¬ ("story", i.id) ∈ written)).map
                              (fun i => ("story", i.id)))
                          { st' with ledger :=
                              (writeImportedCSV st'.ledger
                                ((importedOf created).filter
                                  (fun i => ¬ ("story", i.id) ∈ written)) false) }
                          ((s0 :: rest0).drop BATCH_SIZE) with
                      | error e => rw [hr] at h; cases h
                      | ok val2 =>
                          cases val2 with
                          | mk stF2 snaps2 =>
                              rw [hr] at h
                              injection h with h
                              injection h with h1 h2
                              rw [← h2]
                              refine ⟨?_, ?_⟩
                              · exact (sc_creator_ledger_extends post bulk st b2 st' created hc).trans
                                  (writeImportedCSV_append_extends st'.ledger _)
                              · exact ih _ _ _ _ _ hr
              | error e =>
                  rw [hc] at h
                  simp only [] at h
                  cases hr : liveStoryChunks post bulk em it fuel written
                      { st with failedCsv := appendFailed st.failedCsv b2 }
                      ((s0 :: rest0).drop BATCH_SIZE) with
                  | error e2 => rw [hr] at h; cases h
                  | ok val2 =>
                      cases val2 with
                      | mk stF2 snaps2 =>
                          rw [hr] at h
                          injection h with h
                          injection h with h1 h2
                          rw [← h2]
                          refine ⟨List.prefix_refl _, ?_⟩
                          exact ih written
                            { st with failedCsv := appendFailed st.failedCsv b2 }
                            ((s0 :: rest0).drop BATCH_SIZE) stF2 snaps2 hr

/-- An append phase of the live `commit` only extends the Ledger. -/
theorem commitAppendPhase_ledger_extends {post : PostFn} {bulk : BulkFn} {ty : String}
    {written : List (String × Nat)} {st : LiveSt} {items : List Rec}
    {st' : LiveSt} {done : List Rec} {w' : List (String × Nat)}
    (h : commitAppendPhase post bulk ty written st items = Except.ok (st', done, w')) :
    st.ledger <+: st'.ledger := by
  unfold commitAppendPhase at h
  cases hc : sc_creator post bulk st items with
  | error e => rw [hc] at h; cases h
  | ok val =>
      cases val with
      | mk stm donem =>
          rw [hc] at h
          injection h with h
          injection h with h1 h2
          rw [← h1]
          exact (sc_creator_ledger_extends post bulk st items stm donem hc).trans
            (writeImportedCSV_append_extends stm.ledger _)

/-- A chain start is a prefix of every chain element. -/
theorem ledgerChain_le_get :
    ∀ (snaps : List Ledger) (led : Ledger), ledgerChain led snaps →
      ∀ (j : Nat) (hj : j < snaps.length), led <+: snaps.get ⟨j, hj⟩ := by
  intro snaps
  induction snaps with
  | nil => intro led _ j hj; exact absurd hj (by simp)
  | cons l rest ih =>
      intro led hch j hj
      obtain ⟨h1, h2⟩ := hch
      cases j with
      | zero => exact h1
      | succ j => exact h1.trans (ih l h2 j (by simpa using hj))

/-- Dropping the head of a snapshot chain keeps it a chain. -/
theorem chainAll_tail {l : Ledger} {rest : List Ledger} (h : chainAll (l :: rest)) :
    chainAll rest := by
  cases rest with
  | nil => exact trivial
  | cons l2 r2 => exact h.2

/-- In a snapshot chain, earlier snapshots are prefixes of later ones. -/
theorem chainAll_get_le :
    ∀ (snaps : List Ledger), chainAll snaps →
      ∀ (i j : Nat) (hi : i < snaps.length) (hj : j < snaps.length), i ≤ j →
        snaps.get ⟨i, hi⟩ <+: snaps.get ⟨j, hj⟩ := by
  intro snaps
  induction snaps with
  | nil => intro _ i j hi; exact absurd hi (by simp)
  | cons l rest ih =>
      intro hch i j hi hj hij
      cases i with
      | zero =>
          cases j with
          | zero => exact List.prefix_refl _
          | succ j => exact ledgerChain_le_get rest l hch j (by simpa using hj)
      | succ i =>
          cases j with
          | zero => exact absurd hij (by omega)
          | succ j =>
              exact ih (chainAll_tail hch) i j (by simpa using hi) (by simpa using hj)
                (by omega)

/-- A snapshot chain persists every appended row. -/
theorem ledgerPersists_of_chainAll {snaps : List Ledger} (h : chainAll snaps) :
    ledgerPersists snaps :=
  fun i j hi hj hij _ hp => (chainAll_get_le snaps h i j hi hj hij).subset hp

/-- Claim C2: in a live `commit`, every `(type, id)` row present in the
Ledger at the end of a phase (labels, epics, iterations) or after a story
batch is still present in the Ledger after every later phase and batch — the
labels phase initializes the file once, and every subsequent write is an
append. -/
theorem commitLive_ledger_persists (post : PostFn) (bulk : BulkFn) (c : Collector)
    (out : LiveCommitOut) (h : commitLive post bulk c = Except.ok out) :
    ledgerPersists out.snapshots := by
  unfold commitLive at h
  cases h1 : commitLabelsPhase post bulk c with
  | error e => rw [h1] at h; cases h
  | ok v1 =>
      cases v1 with
      | mk st2 labelsDone =>
          rw [h1] at h
          simp only [] at h
          cases h2 : commitAppendPhase post bulk "epic"
              ((importedOf labelsDone).map (fun i => ("label", i.id))) st2 c.epics with
          | error e => rw [h2] at h; cases h
          | ok v2 =>
              cases v2 with
              | mk st4 rest2 =>
                  cases rest2 with
                  | mk epicsDone written2 =>
                      rw [h2] at h
                      simp only [] at h
                      cases h3 : commitAppendPhase post bulk "iteration" written2 st4
                          (c.iteration_strings.map mkIterRec) with
                      | error e => rw [h3] at h; cases h
                      | ok v3 =>
                          cases v3 with
                          | mk st6 rest3 =>
                              cases rest3 with
                              | mk itersDone written3 =>
                                  rw [h3] at h
                                  simp only [] at h
                                  cases h4 : liveStoryChunks post bulk epicsDone itersDone
                                      c.stories.length written3 st6 c.stories with
                                  | error e => rw [h4] at h; cases h
                                  | ok v4 =>
                                      cases v4 with
                                      | mk stF batchSnaps =>
                                          rw [h4] at h
                                          simp only [] at h
                                          injection h with h
                                          rw [← h]
                                          apply ledgerPersists_of_chainAll
                                          show ledgerChain st2.ledger
                                            (st4.ledger :: st6.ledger :: batchSnaps)
                                          exact ⟨commitAppendPhase_ledger_extends h2,
                                            commitAppendPhase_ledger_extends h3,
                                            liveStoryChunks_chain post bulk epicsDone itersDone
                                              c.stories.length written3 st6 c.stories
                                              stF batchSnaps h4⟩

/-- Witness for C2: a small live commit run (one label, one epic, one story)
produces four monotone Ledger snapshots. -/
theorem commitLive_ledger_persists_witness : ledgerPersists c2Out.snapshots :=
  commitLive_ledger_persists c2Post c2Bulk c2Coll c2Out (by rfl)
